import Mathlib

/-!
A shallow embedding of the IRONY compiler and virtual machine
(`pathos/irony.py`): the line-based parser, the expression/statement
code generator, and the string-instruction virtual machine, together
with theorems about the specified behaviour.

Python strings are modelled as Lean `String`s, with the handful of
Python string primitives the source uses (`strip`, `split`,
`split(sep)`, `join`, `isdigit`, `startswith`, `int(...)`)
reimplemented character-by-character on `List Char`.  Python
exceptions (`SyntaxError`, `ValueError`, `IndexError`, `KeyError`,
`RuntimeError`) become constructors of an explicit error type carried
in `Except`.  Machine integers are Python's unbounded integers,
modelled as `Int`.
-/

set_option maxRecDepth 100000

namespace Irony

/-- Python whitespace characters recognised by `str.strip()` / `str.split()`. -/
def isPySpace (c : Char) : Bool :=
  c = ' ' || c = '\t' || c = '\n' || c = '\r' || c = '\x0b' || c = '\x0c'

/-- ASCII decimal digit, as used by Python `str.isdigit()` on the tokens here. -/
def isPyDigitChar (c : Char) : Bool :=
  '0' ≤ c && c ≤ '9'

/-- A regex `\w` word character (letter, digit or underscore). -/
def isWordChar (c : Char) : Bool :=
  c.isAlphanum || c = '_'

/-- Python `str.strip()` on a character list. -/
def stripL (l : List Char) : List Char :=
  ((l.dropWhile isPySpace).reverse.dropWhile isPySpace).reverse

/-- Python `str.strip()`. -/
def pyStrip (s : String) : String :=
  String.mk (stripL s.data)

/-- Worker for `splitWsL`, accumulating the current word reversed. -/
def splitWsAux : List Char → List Char → List (List Char)
  | [], acc => if acc.isEmpty then [] else [acc.reverse]
  | c :: cs, acc =>
    if isPySpace c then
      if acc.isEmpty then splitWsAux cs [] else acc.reverse :: splitWsAux cs []
    else
      splitWsAux cs (c :: acc)

/-- Python `str.split()` (no separator): split on whitespace runs, no empty parts. -/
def splitWsL (l : List Char) : List (List Char) :=
  splitWsAux l []

/-- Python `str.split()` returning `String`s. -/
def pySplitWs (s : String) : List String :=
  (splitWsL s.data).map String.mk

/-- Worker for `splitChL`, accumulating the current chunk reversed. -/
def splitChAux (sep : Char) : List Char → List Char → List (List Char)
  | [], acc => [acc.reverse]
  | c :: cs, acc =>
    if c = sep then acc.reverse :: splitChAux sep cs []
    else splitChAux sep cs (c :: acc)

/-- Python `str.split(sep)` for a one-character separator: splits at every
occurrence, keeping empty chunks. -/
def splitChL (sep : Char) (l : List Char) : List (List Char) :=
  splitChAux sep l []

/-- Python `str.split(sep)` on `String`s. -/
def pySplitCh (sep : Char) (s : String) : List String :=
  (splitChL sep s.data).map String.mk

/-- Python `sep in s` membership test for a one-character separator. -/
def containsCh (sep : Char) (s : String) : Bool :=
  s.data.any (fun c => c = sep)

/-- Python `" ".join(words)` on character lists. -/
def joinSpaceL : List (List Char) → List Char
  | [] => []
  | [w] => w
  | w :: ws => w ++ ' ' :: joinSpaceL ws

/-- Python `" ".join(words)`. -/
def joinSpace (ws : List String) : String :=
  String.mk (joinSpaceL (ws.map String.data))

/-- Is the first list a prefix of the second (Python `str.startswith`)? -/
def startsWithL : List Char → List Char → Bool
  | [], _ => true
  | _ :: _, [] => false
  | p :: ps, c :: cs => p = c && startsWithL ps cs

/-- Python `str.isdigit()`: nonempty and all digits. -/
def pyIsDigitL (l : List Char) : Bool :=
  !l.isEmpty && l.all isPyDigitChar

/-- Python `str.isdigit()` on `String`s. -/
def pyIsDigit (s : String) : Bool :=
  pyIsDigitL s.data

/-- Numeric value of a digit list. -/
def natOfDigits (l : List Char) : Nat :=
  l.foldl (fun n c => n * 10 + (c.toNat - '0'.toNat)) 0

/-- Python `int(token)` on whitespace-free tokens: optional sign, then digits;
any other shape raises `ValueError` (modelled as `none`). -/
def pyToInt? (l : List Char) : Option Int :=
  match l with
  | '-' :: rest => if pyIsDigitL rest then some (-(natOfDigits rest : Int)) else none
  | '+' :: rest => if pyIsDigitL rest then some (natOfDigits rest : Int) else none
  | _ => if pyIsDigitL l then some (natOfDigits l : Int) else none

/-- Errors of the compiler and the virtual machine.  Each constructor is one
Python exception site: `badLine` is the parser's `SyntaxError`, `idxError` a
list `IndexError` (empty-stack access in the parser, missing instruction
part, negative-index miss in the VM), `valError` a `ValueError` (tuple
unpacking of `split` results, `int()` on a non-numeric token), `noLabel` a
`KeyError` on the label table, `stkOverflow`/`stkUnderflow` the VM stack's
`RuntimeError`s, and `memOOB a` an `IndexError` reading or writing memory
cell `a`.  `noFuel` is the embedding's step-budget exhaustion marker and
corresponds to no Python behaviour (a run that needs more steps than the
given fuel). -/
inductive Err where
  | badLine (line : String)
  | idxError
  | valError
  | noFuel
  | noLabel (name : String)
  | stkOverflow
  | stkUnderflow
  | memOOB (addr : Nat)
deriving Repr, DecidableEq

/-- AST statements, mirroring the parser's dict nodes. -/
inductive Stmt where
  | defS (name arg : String) (body : List Stmt)
  | ifS (cond : String) (body : List Stmt)
  | forS (var fromE toE : String) (body : List Stmt)
  | retS (e : String)
  | printS (e : String)
  | assignS (v e : String)
deriving Repr

/-- The seven recognised source-line forms, plus a mismatch marker. -/
inductive LineForm where
  | fdef (n a : String)
  | fif (c : String)
  | ffor (v a b : String)
  | fret (e : String)
  | fprint (e : String)
  | fassign (v e : String)
  | fend
  | funknown
deriving Repr, DecidableEq

/-- Match `^def (\w+) (\w+)$`. -/
def matchDef (l : List Char) : Option (String × String) :=
  if startsWithL ['d', 'e', 'f', ' '] l then
    let r := l.drop 4
    let w1 := r.takeWhile isWordChar
    if w1.isEmpty then none
    else
      match r.drop w1.length with
      | ' ' :: w2 =>
        if !w2.isEmpty && w2.all isWordChar then some (String.mk w1, String.mk w2)
        else none
      | _ => none
  else none

/-- The literal separator `" to "` of the `for` pattern. -/
def toSepL : List Char := [' ', 't', 'o', ' ']

/-- Regex-greedy split of the tail of a `for` line at the rightmost `" to "`
occurrence whose two sides are both nonempty (matching `(.+) to (.+)$`). -/
def splitForTail (r : List Char) : Option (List Char × List Char) :=
  ((List.range (r.length + 1)).reverse.filterMap (fun p =>
    if 1 ≤ p && startsWithL toSepL (r.drop p) && !(r.drop (p + 4)).isEmpty then
      some (r.take p, r.drop (p + 4))
    else none)).head?

/-- Match `^for (\w+) from (.+) to (.+)$`. -/
def matchFor (l : List Char) : Option (String × String × String) :=
  if startsWithL ['f', 'o', 'r', ' '] l then
    let r := l.drop 4
    let v := r.takeWhile isWordChar
    if v.isEmpty then none
    else
      let r2 := r.drop v.length
      if startsWithL [' ', 'f', 'r', 'o', 'm', ' '] r2 then
        match splitForTail (r2.drop 6) with
        | some (a, b) => some (String.mk v, String.mk a, String.mk b)
        | none => none
      else none
  else none

/-- Match `^(\w+)\s*=\s*(.+)$` on an already stripped line. -/
def matchAssign (l : List Char) : Option (String × String) :=
  let w := l.takeWhile isWordChar
  if w.isEmpty then none
  else
    match (l.drop w.length).dropWhile isPySpace with
    | '=' :: rest =>
      let e := rest.dropWhile isPySpace
      if e.isEmpty then none else some (String.mk w, String.mk e)
    | _ => none

/-- Classify one stripped source line against the seven statement forms, in
the parser's priority order. -/
def classify (line : String) : LineForm :=
  let l := line.data
  match matchDef l with
  | some (n, a) => .fdef n a
  | none =>
    if startsWithL ['i', 'f', ' '] l && !(l.drop 3).isEmpty then
      .fif (String.mk (l.drop 3))
    else
      match matchFor l with
      | some (v, a, b) => .ffor v a b
      | none =>
        if startsWithL ['r', 'e', 't', 'u', 'r', 'n', ' '] l && !(l.drop 7).isEmpty then
          .fret (String.mk (l.drop 7))
        else if startsWithL ['p', 'r', 'i', 'n', 't', ' '] l && !(l.drop 6).isEmpty then
          .fprint (String.mk (l.drop 6))
        else
          match matchAssign l with
          | some (v, e) => .fassign v e
          | none => if l = ['e', 'n', 'd'] then .fend else .funknown

/-- The parser's preprocessing: strip every line, drop blanks and `#` comments. -/
def filterLines (lines : List String) : List String :=
  lines.filterMap (fun l =>
    let s := stripL l.data
    if s.isEmpty || startsWithL ['#'] s then none else some (String.mk s))

/-- An open block header on the parser's stack. -/
inductive Opener where
  | odef (name arg : String)
  | oif (cond : String)
  | ofor (v a b : String)
deriving Repr

/-- One entry of the parser's block stack: the opener that created it
(`none` for the root list) and the statements appended so far. -/
structure Frame where
  opener : Option Opener
  stmts : List Stmt
deriving Repr

/-- Build the AST node for a closed block. -/
def closeStmt (o : Opener) (sts : List Stmt) : Stmt :=
  match o with
  | .odef n a => .defS n a sts
  | .oif c => .ifS c sts
  | .ofor v a b => .forS v a b sts

/-- Fold a completed statement into the remaining open frames down to the
root: open nodes absorb their partial bodies, exactly as the Python parser's
already-appended-by-reference dict nodes read at `return ast`. -/
def unwindInto (s : Stmt) : List Frame → List Stmt
  | [] => [s]
  | f :: fs =>
    match f.opener with
    | none => f.stmts ++ [s]
    | some o => unwindInto (closeStmt o (f.stmts ++ [s])) fs

/-- The statements visible from the root at end of input, with every still
open frame folded into its parent. -/
def unwindStack : List Frame → List Stmt
  | [] => []
  | f :: fs =>
    match f.opener with
    | none => f.stmts
    | some o => unwindInto (closeStmt o f.stmts) fs

/-- The parser's main loop over preprocessed lines.  `stack` mirrors the
Python `stack` of list references: head is the innermost open body, last is
the root.  `fns` is the global `function_names` set in encounter order.
Once the root has been popped by a surplus `end`, every further line raises:
`IndexError` for any of the seven forms (the `stack[-1]` access or the pop
from the empty stack), `SyntaxError` for an unrecognised line - reproduced
in the `[f]`-pop branch; the `[]` cases are unreachable from `parse`. -/
def parseLoop : List String → List String → List Frame → Except Err (List Stmt × List String)
  | [], fns, stack => .ok (unwindStack stack, fns)
  | line :: rest, fns, stack =>
    match classify line with
    | .fdef n a =>
      match stack with
      | f :: fs => parseLoop rest (fns ++ [n]) (⟨some (.odef n a), []⟩ :: f :: fs)
      | [] => .error .idxError
    | .fif c =>
      match stack with
      | f :: fs => parseLoop rest fns (⟨some (.oif c), []⟩ :: f :: fs)
      | [] => .error .idxError
    | .ffor v a b =>
      match stack with
      | f :: fs => parseLoop rest fns (⟨some (.ofor v a b), []⟩ :: f :: fs)
      | [] => .error .idxError
    | .fret e =>
      match stack with
      | f :: fs => parseLoop rest fns ({ f with stmts := f.stmts ++ [.retS e] } :: fs)
      | [] => .error .idxError
    | .fprint e =>
      match stack with
      | f :: fs => parseLoop rest fns ({ f with stmts := f.stmts ++ [.printS e] } :: fs)
      | [] => .error .idxError
    | .fassign v e =>
      match stack with
      | f :: fs => parseLoop rest fns ({ f with stmts := f.stmts ++ [.assignS v e] } :: fs)
      | [] => .error .idxError
    | .fend =>
      match stack with
      | f :: g :: gs =>
        match f.opener with
        | some o => parseLoop rest fns ({ g with stmts := g.stmts ++ [closeStmt o f.stmts] } :: gs)
        | none => .error .idxError
      | [f] =>
        match rest with
        | [] => .ok (f.stmts, fns)
        | l2 :: _ =>
          match classify l2 with
          | .funknown => .error (.badLine l2)
          | _ => .error .idxError
      | [] => .error .idxError
    | .funknown => .error (.badLine line)

/-- `parse(lines)`: preprocess, then run the line loop from a fresh root.
Returns the AST together with the function names recorded while parsing
(the module-global `function_names`, reset by `compile`). -/
def parse (lines : List String) : Except Err (List Stmt × List String) :=
  parseLoop (filterLines lines) [] [⟨none, []⟩]

/-- `temp()`: bump the global counter and build the next `tmpN` name. -/
def temp (cnt : Nat) : String × Nat :=
  ("tmp" ++ toString (cnt + 1), cnt + 1)

/-- `compile_expr(expr)`, fuelled for the non-structural recursion on
substrings.  `fns` is the global `function_names`; `cnt` the global temp
counter.  Returns `(location, instructions, counter)`.  The Python tuple
unpacking `a, b = expr.split(...)` raises `ValueError` whenever the split
does not produce exactly two parts. -/
def compileExprF (fns : List String) : Nat → String → Nat → Except Err (String × List String × Nat)
  | 0, _, _ => .error .noFuel
  | fuel + 1, expr, cnt =>
    let e := pyStrip expr
    let words := pySplitWs e
    if 2 ≤ words.length && words.headD "" ∈ fns then
      match compileExprF fns fuel (joinSpace (words.drop 1)) cnt with
      | .error err => .error err
      | .ok (argTmp, argCode, cnt) =>
        let (t, cnt) := temp cnt
        .ok (t, argCode ++
          ["PUSH " ++ argTmp, "CALL " ++ words.headD "", "MOV _retval " ++ t], cnt)
    else if containsCh '+' e then
      match pySplitCh '+' e with
      | [a, b] =>
        match compileExprF fns fuel (pyStrip a) cnt with
        | .error err => .error err
        | .ok (ta, ca, cnt) =>
          match compileExprF fns fuel (pyStrip b) cnt with
          | .error err => .error err
          | .ok (tb, cb, cnt) =>
            let (t, cnt) := temp cnt
            .ok (t, ca ++ cb ++ ["ADD " ++ ta ++ " " ++ tb ++ " " ++ t], cnt)
      | _ => .error .valError
    else if containsCh '-' e then
      match pySplitCh '-' e with
      | [a, b] =>
        match compileExprF fns fuel (pyStrip a) cnt with
        | .error err => .error err
        | .ok (ta, ca, cnt) =>
          match compileExprF fns fuel (pyStrip b) cnt with
          | .error err => .error err
          | .ok (tb, cb, cnt) =>
            let (t, cnt) := temp cnt
            .ok (t, ca ++ cb ++ ["SUB " ++ ta ++ " " ++ tb ++ " " ++ t], cnt)
      | _ => .error .valError
    else
      .ok (e, [], cnt)

/-- `compile_expr` with always-sufficient fuel: every recursive call is on a
strictly shorter string, so `length + 1` levels never run out. -/
def compileExpr (fns : List String) (expr : String) (cnt : Nat) :
    Except Err (String × List String × Nat) :=
  compileExprF fns (expr.length + 1) expr cnt

mutual

/-- `compile_stmt(stmt, output)`: the instructions appended to `output` and
the updated temp counter.  A nested `def` matches no branch in the Python
function and appends nothing. -/
def compileStmt (fns : List String) : Stmt → Nat → Except Err (List String × Nat)
  | .assignS v e, cnt =>
    match compileExpr fns e cnt with
    | .error err => .error err
    | .ok (t, code, cnt) => .ok (code ++ ["MOV " ++ t ++ " " ++ v], cnt)
  | .retS e, cnt =>
    match compileExpr fns e cnt with
    | .error err => .error err
    | .ok (t, code, cnt) => .ok (code ++ ["RET " ++ t], cnt)
  | .ifS cond body, cnt =>
    match pySplitCh '<' cond with
    | [c, _] =>
      let c := pyStrip c
      match compileExpr fns c cnt with
      | .error err => .error err
      | .ok (t, code, cnt) =>
        let (label, cnt) := temp cnt
        match compileStmts fns body cnt with
        | .error err => .error err
        | .ok (bodyCode, cnt) =>
          .ok (code ++ ["JGE " ++ t ++ " 2 " ++ label ++ "_end"] ++ bodyCode ++
            ["LABEL " ++ label ++ "_end"], cnt)
    | _ => .error .valError
  | .forS v fromE toE body, cnt =>
    match compileExpr fns fromE cnt with
    | .error err => .error err
    | .ok (startTmp, startCode, cnt) =>
      match compileExpr fns toE cnt with
      | .error err => .error err
      | .ok (endTmp, endCode, cnt) =>
        let (loopLabel, cnt) := temp cnt
        let (endLabel, cnt) := temp cnt
        let (endVar, cnt) := temp cnt
        match compileStmts fns body cnt with
        | .error err => .error err
        | .ok (bodyCode, cnt) =>
          let (incTmp, cnt) := temp cnt
          .ok (startCode ++ ["MOV " ++ startTmp ++ " " ++ v] ++
            endCode ++ ["MOV " ++ endTmp ++ " " ++ endVar] ++
            ["LABEL " ++ loopLabel ++ "_start"] ++
            ["JGT " ++ v ++ " " ++ endVar ++ " " ++ endLabel ++ "_end"] ++
            bodyCode ++
            ["ADD " ++ v ++ " 1 " ++ incTmp, "MOV " ++ incTmp ++ " " ++ v] ++
            ["JMP " ++ loopLabel ++ "_start"] ++
            ["LABEL " ++ endLabel ++ "_end"], cnt)
  | .printS e, cnt =>
    match compileExpr fns e cnt with
    | .error err => .error err
    | .ok (t, code, cnt) => .ok (code ++ ["PRINT " ++ t], cnt)
  | .defS _ _ _, cnt => .ok ([], cnt)

/-- The `for s in stmt["body"]: compile_stmt(s, output)` loops. -/
def compileStmts (fns : List String) : List Stmt → Nat → Except Err (List String × Nat)
  | [], cnt => .ok ([], cnt)
  | s :: rest, cnt =>
    match compileStmt fns s cnt with
    | .error err => .error err
    | .ok (code, cnt) =>
      match compileStmts fns rest cnt with
      | .error err => .error err
      | .ok (restCode, cnt) => .ok (code ++ restCode, cnt)

end

/-- `compile_fn(fn)`: label, parameter binding, body. -/
def compileFn (fns : List String) (name arg : String) (body : List Stmt) (cnt : Nat) :
    Except Err (List String × Nat) :=
  match compileStmts fns body cnt with
  | .error err => .error err
  | .ok (code, cnt) => .ok (["LABEL " ++ name, "PARAM " ++ arg] ++ code, cnt)

/-- The loop of `compile_all`: one pass over the top-level items, sending
`def`s to the functions block and only `assign`, `print` and `for`
statements to the main block - a top-level `if` or `return` matches no
branch and is silently dropped. -/
def compileItems (fns : List String) : List Stmt → Nat → Except Err (List String × List String × Nat)
  | [], cnt => .ok ([], [], cnt)
  | item :: rest, cnt =>
    match item with
    | .defS n a body =>
      match compileFn fns n a body cnt with
      | .error err => .error err
      | .ok (fc, cnt) =>
        match compileItems fns rest cnt with
        | .error err => .error err
        | .ok (code, mainCode, cnt) => .ok (fc ++ code, mainCode, cnt)
    | .assignS v e =>
      match compileStmt fns (.assignS v e) cnt with
      | .error err => .error err
      | .ok (sc, cnt) =>
        match compileItems fns rest cnt with
        | .error err => .error err
        | .ok (code, mainCode, cnt) => .ok (code, sc ++ mainCode, cnt)
    | .printS e =>
      match compileStmt fns (.printS e) cnt with
      | .error err => .error err
      | .ok (sc, cnt) =>
        match compileItems fns rest cnt with
        | .error err => .error err
        | .ok (code, mainCode, cnt) => .ok (code, sc ++ mainCode, cnt)
    | .forS v a b body =>
      match compileStmt fns (.forS v a b body) cnt with
      | .error err => .error err
      | .ok (sc, cnt) =>
        match compileItems fns rest cnt with
        | .error err => .error err
        | .ok (code, mainCode, cnt) => .ok (code, sc ++ mainCode, cnt)
    | .ifS _ _ => compileItems fns rest cnt
    | .retS _ => compileItems fns rest cnt

/-- `compile_all(ast)`: `JMP main`, functions block, `LABEL main`, main
block, `HALT`. -/
def compileAll (fns : List String) (ast : List Stmt) : Except Err (List String) :=
  match compileItems fns ast 0 with
  | .error err => .error err
  | .ok (code, mainCode, _) =>
    .ok ("JMP main" :: code ++ "LABEL main" :: mainCode ++ ["HALT"])

/-- `compile(source)`: reset the globals, parse, then assemble. -/
def compile (source : List String) : Except Err (List String) :=
  match parse source with
  | .error err => .error err
  | .ok (ast, fns) => compileAll fns ast

/-- `VirtualHardware` state.  `pc` is an `Int` because Python assigns popped
stack values (arbitrary ints) to it on `RET`; negative values then index the
program from the end, Python style. -/
structure VH where
  memory : List Int
  registers : List Int
  stack : List Int
  pc : Int
  sp : Nat
  bp : Nat
  labels : List (String × Nat)
  nextMemAddr : Nat
  scopeStack : List (List (String × Nat))
  program : List String
  output : List String
deriving Repr

/-- `VirtualHardware(memory_size, stack_size)`. -/
def VH.init (memorySize stackSize : Nat) : VH :=
  { memory := List.replicate memorySize 0
    registers := List.replicate 16 0
    stack := List.replicate stackSize 0
    pc := 0
    sp := 0
    bp := 0
    labels := []
    nextMemAddr := 0
    scopeStack := [[]]
    program := []
    output := [] }

/-- First pass of `load_program`: record `LABEL` lines.  Newer entries are
prepended so that `List.lookup` returns the latest binding, matching dict
assignment.  `line.split()[1]` on a `"LABEL "` line with no second token
raises `IndexError`. -/
def buildLabels : List String → Nat → List (String × Nat) → Except Err (List (String × Nat))
  | [], _, acc => .ok acc
  | line :: rest, i, acc =>
    if startsWithL ['L', 'A', 'B', 'E', 'L', ' '] line.data then
      match pySplitWs line with
      | _ :: name :: _ => buildLabels rest (i + 1) ((name, i) :: acc)
      | _ => .error .idxError
    else
      buildLabels rest (i + 1) acc

/-- `load_program(code)`. -/
def loadProgram (s : VH) (code : List String) : Except Err VH :=
  match buildLabels code 0 [] with
  | .error e => .error e
  | .ok labels => .ok { s with program := code, labels := labels }

/-- `is_temp_var`: starts with `tmp` followed by a nonempty digit string. -/
def isTempVar (name : String) : Bool :=
  startsWithL ['t', 'm', 'p'] name.data && pyIsDigitL (name.data.drop 3)

/-- `get_temp_register`: `int(name[3:]) % 16`. -/
def tempReg (name : String) : Nat :=
  natOfDigits (name.data.drop 3) % 16

/-- `get_var_addr`: temps get no memory address; otherwise look the name up
in the current (top) scope, allocating the next free address on a miss.
There is no comparison of the handed-out address against the memory size.
Accessing the top of an empty scope stack raises `IndexError`. -/
def getVarAddr (s : VH) (name : String) : Except Err (Option Nat × VH) :=
  if isTempVar name then .ok (none, s)
  else
    match s.scopeStack.getLast? with
    | none => .error .idxError
    | some cur =>
      match cur.lookup name with
      | some a => .ok (some a, s)
      | none =>
        let a := s.nextMemAddr
        .ok (some a, { s with
          nextMemAddr := a + 1
          scopeStack := s.scopeStack.dropLast ++ [(name, a) :: cur] })

/-- Integer value of a token that passed `eval_arg`'s literal test. -/
def intOfLiteral (arg : String) : Int :=
  match arg.data with
  | '-' :: rest => -(natOfDigits rest : Int)
  | l => (natOfDigits l : Int)

/-- `eval_arg(arg)`: literal, register-backed temp, or memory-backed
variable (allocated on first reference, hence the state result).  A memory
read past the end of the array raises `IndexError`, carried as `memOOB`. -/
def evalArg (s : VH) (arg : String) : Except Err (Int × VH) :=
  if pyIsDigit arg || (startsWithL ['-'] arg.data && pyIsDigitL (arg.data.drop 1)) then
    .ok (intOfLiteral arg, s)
  else if isTempVar arg then
    .ok (s.registers.getD (tempReg arg) 0, s)
  else
    match getVarAddr s arg with
    | .error e => .error e
    | .ok (some a, s2) =>
      match s2.memory.get? a with
      | some v => .ok (v, s2)
      | none => .error (.memOOB a)
    | .ok (none, _) => .error .idxError

/-- `set_var(name, value)`: registers for temps, memory for variables; a
write past the end of memory raises `IndexError`, carried as `memOOB`. -/
def setVar (s : VH) (name : String) (v : Int) : Except Err VH :=
  if isTempVar name then
    .ok { s with registers := s.registers.set (tempReg name) v }
  else
    match getVarAddr s name with
    | .error e => .error e
    | .ok (some a, s2) =>
      if a < s2.memory.length then .ok { s2 with memory := s2.memory.set a v }
      else .error (.memOOB a)
    | .ok (none, _) => .error .idxError

/-- `push(value)` with the overflow check. -/
def vhPush (s : VH) (v : Int) : Except Err VH :=
  if s.stack.length ≤ s.sp then .error .stkOverflow
  else .ok { s with stack := s.stack.set s.sp v, sp := s.sp + 1 }

/-- `pop()` with the underflow check. -/
def vhPop (s : VH) : Except Err (Int × VH) :=
  if s.sp = 0 then .error .stkUnderflow
  else .ok (s.stack.getD (s.sp - 1) 0, { s with sp := s.sp - 1 })

/-- `self.labels[label]`; a missing key raises `KeyError`. -/
def lookupLabel (s : VH) (name : String) : Except Err Nat :=
  match s.labels.lookup name with
  | some i => .ok i
  | none => .error (.noLabel name)

/-- `parts[i]` with Python's `IndexError` on a missing operand. -/
def getPart (parts : List String) (i : Nat) : Except Err String :=
  match parts.get? i with
  | some p => .ok p
  | none => .error .idxError

/-- Python list indexing with negative wraparound, for `program[pc]`. -/
def pyIndex (l : List String) (i : Int) : Except Err String :=
  if 0 ≤ i then
    match l.get? i.toNat with
    | some x => .ok x
    | none => .error .idxError
  else if (-i).toNat ≤ l.length then
    match l.get? (l.length - (-i).toNat) with
    | some x => .ok x
    | none => .error .idxError
  else .error .idxError

/-- Result of one iteration of the run loop: fall through to the next
fetch, or leave the loop (`break` on `HALT` and on an unknown opcode). -/
inductive StepRes where
  | cont (s : VH)
  | stop (s : VH)
deriving Repr

/-- The fetch-decode-execute dispatch on the split instruction parts.  `pc`
is already advanced (or redirected) in the returned state; `stop` models
`break`.  An opcode matching none of the thirteen known ones silently
leaves the loop, exactly like the final `else: break`. -/
def execParts (s : VH) (parts : List String) : Except Err StepRes :=
  match parts.head? with
  | none => .error .idxError
  | some op =>
    if op = "LABEL" then
      .ok (.cont { s with pc := s.pc + 1 })
    else if op = "JMP" then
      match getPart parts 1 with
      | .error e => .error e
      | .ok label =>
        match lookupLabel s label with
        | .error e => .error e
        | .ok i => .ok (.cont { s with pc := (i : Int) })
    else if op = "PARAM" then
      match vhPop s with
      | .error e => .error e
      | .ok (val, s) =>
        match getPart parts 1 with
        | .error e => .error e
        | .ok p1 =>
          match setVar s p1 val with
          | .error e => .error e
          | .ok s => .ok (.cont { s with pc := s.pc + 1 })
    else if op = "MOV" then
      match getPart parts 1 with
      | .error e => .error e
      | .ok p1 =>
        match evalArg s p1 with
        | .error e => .error e
        | .ok (val, s) =>
          match getPart parts 2 with
          | .error e => .error e
          | .ok p2 =>
            match setVar s p2 val with
            | .error e => .error e
            | .ok s => .ok (.cont { s with pc := s.pc + 1 })
    else if op = "ADD" then
      match getPart parts 1 with
      | .error e => .error e
      | .ok p1 =>
        match evalArg s p1 with
        | .error e => .error e
        | .ok (a, s) =>
          match getPart parts 2 with
          | .error e => .error e
          | .ok p2 =>
            match evalArg s p2 with
            | .error e => .error e
            | .ok (b, s) =>
              match getPart parts 3 with
              | .error e => .error e
              | .ok p3 =>
                match setVar s p3 (a + b) with
                | .error e => .error e
                | .ok s => .ok (.cont { s with pc := s.pc + 1 })
    else if op = "SUB" then
      match getPart parts 1 with
      | .error e => .error e
      | .ok p1 =>
        match evalArg s p1 with
        | .error e => .error e
        | .ok (a, s) =>
          match getPart parts 2 with
          | .error e => .error e
          | .ok p2 =>
            match evalArg s p2 with
            | .error e => .error e
            | .ok (b, s) =>
              match getPart parts 3 with
              | .error e => .error e
              | .ok p3 =>
                match setVar s p3 (a - b) with
                | .error e => .error e
                | .ok s => .ok (.cont { s with pc := s.pc + 1 })
    else if op = "RET" then
      match getPart parts 1 with
      | .error e => .error e
      | .ok p1 =>
        match evalArg s p1 with
        | .error e => .error e
        | .ok (val, s) =>
          match vhPop s with
          | .error e => .error e
          | .ok (retAddr, s) =>
            match s.scopeStack with
            | [] => .error .idxError
            | _ :: _ =>
              match setVar { s with scopeStack := s.scopeStack.dropLast } "_retval" val with
              | .error e => .error e
              | .ok s => .ok (.cont { s with pc := retAddr })
    else if op = "JGE" then
      match getPart parts 1 with
      | .error e => .error e
      | .ok p1 =>
        match evalArg s p1 with
        | .error e => .error e
        | .ok (val, s) =>
          match getPart parts 2 with
          | .error e => .error e
          | .ok t =>
            match pyToInt? t.data with
            | none => .error .valError
            | some threshold =>
              match getPart parts 3 with
              | .error e => .error e
              | .ok label =>
                if threshold ≤ val then
                  match lookupLabel s label with
                  | .error e => .error e
                  | .ok i => .ok (.cont { s with pc := (i : Int) })
                else .ok (.cont { s with pc := s.pc + 1 })
    else if op = "JGT" then
      match getPart parts 1 with
      | .error e => .error e
      | .ok p1 =>
        match evalArg s p1 with
        | .error e => .error e
        | .ok (val, s) =>
          match getPart parts 2 with
          | .error e => .error e
          | .ok p2 =>
            match evalArg s p2 with
            | .error e => .error e
            | .ok (threshold, s) =>
              match getPart parts 3 with
              | .error e => .error e
              | .ok label =>
                if threshold < val then
                  match lookupLabel s label with
                  | .error e => .error e
                  | .ok i => .ok (.cont { s with pc := (i : Int) })
                else .ok (.cont { s with pc := s.pc + 1 })
    else if op = "PUSH" then
      match getPart parts 1 with
      | .error e => .error e
      | .ok p1 =>
        match evalArg s p1 with
        | .error e => .error e
        | .ok (val, s) =>
          match vhPush s val with
          | .error e => .error e
          | .ok s => .ok (.cont { s with pc := s.pc + 1 })
    else if op = "CALL" then
      match vhPop s with
      | .error e => .error e
      | .ok (arg, s) =>
        match vhPush s (s.pc + 1) with
        | .error e => .error e
        | .ok s =>
          match vhPush s arg with
          | .error e => .error e
          | .ok s =>
            let s := { s with scopeStack := s.scopeStack ++ [[]] }
            match getPart parts 1 with
            | .error e => .error e
            | .ok label =>
              match lookupLabel s label with
              | .error e => .error e
              | .ok i => .ok (.cont { s with pc := (i : Int) })
    else if op = "PRINT" then
      match getPart parts 1 with
      | .error e => .error e
      | .ok p1 =>
        match evalArg s p1 with
        | .error e => .error e
        | .ok (val, s) =>
          .ok (.cont { s with output := s.output ++ [toString val], pc := s.pc + 1 })
    else if op = "HALT" then
      .ok (.stop s)
    else
      .ok (.stop s)

/-- One iteration of the run loop body on the raw instruction text:
`parts = instr.split()`, then dispatch. -/
def execInstr (s : VH) (instr : String) : Except Err StepRes :=
  execParts s (pySplitWs instr)

/-- The `while self.pc < len(self.program)` loop, fuelled. -/
def runLoop : Nat → VH → Except Err (List String)
  | 0, _ => .error .noFuel
  | fuel + 1, s =>
    if s.pc < (s.program.length : Int) then
      match pyIndex s.program s.pc with
      | .error e => .error e
      | .ok instr =>
        match execInstr s instr with
        | .error e => .error e
        | .ok (.stop s2) => .ok s2.output
        | .ok (.cont s2) => runLoop fuel s2
    else .ok s.output

/-- `run()`: reset `pc`, `sp` and the output, then loop. -/
def VH.run (s : VH) (fuel : Nat) : Except Err (List String) :=
  runLoop fuel { s with pc := 0, sp := 0, output := [] }

/-- `execute(code)`: a fresh default `VirtualHardware` (512 memory cells,
16 stack slots), load, run. -/
def execute (code : List String) (fuel : Nat) : Except Err (List String) :=
  match loadProgram (VH.init 512 16) code with
  | .error e => .error e
  | .ok vm => vm.run fuel

/-- The VM state carried by a step result. -/
def StepRes.stateOf : StepRes → VH
  | .cont s => s
  | .stop s => s

/-- Is this line form one of the three block openers (`def`, `if`, `for`)? -/
def isOpenerForm : LineForm → Bool
  | .fdef _ _ => true
  | .fif _ => true
  | .ffor _ _ _ => true
  | _ => false

/-- Is this line form the `end` closer? -/
def isEndForm : LineForm → Bool
  | .fend => true
  | _ => false

/-! ### Concrete programs and states used by the theorems -/

/-- The fixed fibonacci source program of the end-to-end test, one statement
per line. -/
def fibSource : List String :=
  ["def fib n", "if n < 2", "return n", "end", "a = fib n - 1",
   "b = fib n - 2", "return a + b", "end", "main = fib 9", "print main"]

/-- An assembly program that binds sixteen fresh variables in a fresh scope
on every loop iteration (fifteen of them allocated on first *read*, by
`PRINT`): `next_mem_addr` grows without bound until the 513th allocation
indexes memory cell 512, one past the end of the default 512-cell
memory. -/
def oobProg : List String :=
  ["JMP main", "LABEL f", "PARAM n",
   "PRINT q1", "PRINT q2", "PRINT q3", "PRINT q4", "PRINT q5",
   "PRINT q6", "PRINT q7", "PRINT q8", "PRINT q9", "PRINT q10",
   "PRINT q11", "PRINT q12", "PRINT q13", "PRINT q14", "PRINT q15",
   "RET 0", "LABEL main", "LABEL loop", "PUSH 1", "CALL f", "JMP loop"]

/-- A VM state at call depth 1: the global scope (index 0) already holds a
`_retval` binding at address 0, the current (top) scope is empty, and the
next free address is 7. -/
def retvalState : VH :=
  { VH.init 512 16 with scopeStack := [[("_retval", 0)], []], nextMemAddr := 7 }

/-- A VM state at call depth 2, about to execute `RET 42`: the global scope
holds `q` at 0 and `_retval` at 1 (memory cell 1 holds 8), the caller scope
holds `a` at 2, the callee scope holds `b` at 3, and the stack holds the
return address 9. -/
def retState : VH :=
  { VH.init 512 16 with
    scopeStack := [[("q", 0), ("_retval", 1)], [("a", 2)], [("b", 3)]]
    nextMemAddr := 4
    memory := (List.replicate 512 (0 : Int)).set 1 8
    stack := (List.replicate 16 (0 : Int)).set 0 9
    sp := 1 }

/-- A VM state whose allocation counter has already reached the memory
capacity: the next allocation hands out address 512 regardless. -/
def oobState : VH :=
  { VH.init 512 16 with nextMemAddr := 512 }

/-! ### Supporting lemmas -/

lemma getVarAddr_top (s : VH) (name : String) (cur : List (String × Nat))
    (h1 : isTempVar name = false) (h2 : s.scopeStack.getLast? = some cur) :
    getVarAddr s name =
      (match cur.lookup name with
       | some a => .ok (some a, s)
       | none => .ok (some s.nextMemAddr,
           { s with nextMemAddr := s.nextMemAddr + 1
                    scopeStack := s.scopeStack.dropLast ++ [(name, s.nextMemAddr) :: cur] })) := by
  unfold getVarAddr
  rw [h1, h2]
  simp

lemma execInstr_unknown (s : VH) (instr op : String) (rest : List String)
    (hsplit : pySplitWs instr = op :: rest)
    (hop : op ∉ (["LABEL", "JMP", "PARAM", "MOV", "ADD", "SUB", "RET", "JGE",
      "JGT", "PUSH", "CALL", "PRINT", "HALT"] : List String)) :
    execInstr s instr = .ok (.stop s) := by
  simp only [List.mem_cons, List.mem_singleton, not_or] at hop
  obtain ⟨h1, h2, h3, h4, h5, h6, h7, h8, h9, h10, h11, h12, h13, -⟩ := hop
  unfold execInstr
  rw [hsplit]
  unfold execParts
  simp only [List.head?_cons, if_neg h1, if_neg h2, if_neg h3, if_neg h4, if_neg h5,
    if_neg h6, if_neg h7, if_neg h8, if_neg h9, if_neg h10, if_neg h11, if_neg h12, if_neg h13]

lemma execInstr_jge_lit (s : VH) (instr a t l : String) (n v : Int) (s2 : VH)
    (hsplit : pySplitWs instr = ["JGE", a, t, l])
    (ht : pyToInt? t.data = some n)
    (ha : evalArg s a = .ok (v, s2)) :
    execInstr s instr =
      (if n ≤ v then
        match lookupLabel s2 l with
        | .error e => .error e
        | .ok i => .ok (.cont { s2 with pc := (i : Int) })
      else .ok (.cont { s2 with pc := s2.pc + 1 })) := by
  unfold execInstr
  rw [hsplit]
  unfold execParts
  simp only [List.head?_cons, getPart, List.get?, bind, Except.bind, pure, Except.pure]
  simp only [ha, ht, String.reduceEq, reduceIte]

lemma execInstr_jge_var (s : VH) (instr a t l : String) (v : Int) (s2 : VH)
    (hsplit : pySplitWs instr = ["JGE", a, t, l])
    (ht : pyToInt? t.data = none)
    (ha : evalArg s a = .ok (v, s2)) :
    execInstr s instr = .error .valError := by
  unfold execInstr
  rw [hsplit]
  unfold execParts
  simp only [List.head?_cons, getPart, List.get?, bind, Except.bind, pure, Except.pure]
  simp only [ha, ht, String.reduceEq, reduceIte]

lemma execInstr_jgt (s : VH) (instr a t l : String) (v w : Int) (s2 s3 : VH)
    (hsplit : pySplitWs instr = ["JGT", a, t, l])
    (ha : evalArg s a = .ok (v, s2))
    (ht : evalArg s2 t = .ok (w, s3)) :
    execInstr s instr =
      (if w < v then
        match lookupLabel s3 l with
        | .error e => .error e
        | .ok i => .ok (.cont { s3 with pc := (i : Int) })
      else .ok (.cont { s3 with pc := s3.pc + 1 })) := by
  unfold execInstr
  rw [hsplit]
  unfold execParts
  simp only [List.head?_cons, getPart, List.get?, bind, Except.bind, pure, Except.pure]
  simp only [ha, ht, String.reduceEq, reduceIte]

lemma getVarAddr_ok_memory {s : VH} {name : String} {a? : Option Nat} {s2 : VH}
    (h : getVarAddr s name = .ok (a?, s2)) : s2.memory = s.memory := by
  unfold getVarAddr at h
  repeat' split at h
  all_goals simp_all
  all_goals (obtain ⟨-, rfl⟩ := h; rfl)

lemma getVarAddr_error_eq {s : VH} {name : String} {e : Err}
    (h : getVarAddr s name = .error e) : e = .idxError := by
  unfold getVarAddr at h
  repeat' split at h
  all_goals simp_all

lemma evalArg_ok_memory {s : VH} {arg : String} {v : Int} {s2 : VH}
    (h : evalArg s arg = .ok (v, s2)) : s2.memory = s.memory := by
  unfold evalArg at h
  repeat' split at h
  all_goals simp_all
  all_goals
    (rename_i hga _
     first
       | exact getVarAddr_ok_memory hga
       | exact (getVarAddr_ok_memory hga).symm)

lemma evalArg_oob {s : VH} {arg : String} {a : Nat}
    (h : evalArg s arg = .error (.memOOB a)) : s.memory.length ≤ a := by
  unfold evalArg at h
  repeat' split at h
  all_goals simp_all
  all_goals
    first
      | (rename_i hga hle
         rw [getVarAddr_ok_memory hga] at hle
         omega)
      | (rename_i hle
         exact absurd (getVarAddr_error_eq hle) (by simp))

lemma setVar_ok_memlen {s : VH} {name : String} {v : Int} {s2 : VH}
    (h : setVar s name v = .ok s2) : s2.memory.length = s.memory.length := by
  unfold setVar at h
  repeat' split at h
  all_goals simp_all
  all_goals
    first
      | (rename_i hga hlt
         subst h
         simp only [List.length_set]
         rw [getVarAddr_ok_memory hga])
      | (subst h
         rfl)
      | (rename_i hle
         exact absurd (getVarAddr_error_eq hle) (by simp))

lemma setVar_oob {s : VH} {name : String} {v : Int} {a : Nat}
    (h : setVar s name v = .error (.memOOB a)) : s.memory.length ≤ a := by
  unfold setVar at h
  repeat' split at h
  all_goals simp_all
  all_goals
    first
      | (rename_i hga hle
         rw [getVarAddr_ok_memory hga] at hle
         omega)
      | (rename_i hle
         exact absurd (getVarAddr_error_eq hle) (by simp))


lemma vhPop_ok_memory {s : VH} {v : Int} {s2 : VH}
    (h : vhPop s = .ok (v, s2)) : s2.memory = s.memory := by
  unfold vhPop at h
  split at h
  all_goals simp_all
  obtain ⟨-, rfl⟩ := h
  rfl

lemma vhPop_error_eq {s : VH} {e : Err}
    (h : vhPop s = .error e) : e = .stkUnderflow := by
  unfold vhPop at h
  split at h
  all_goals simp_all

lemma vhPush_ok_memory {s : VH} {v : Int} {s2 : VH}
    (h : vhPush s v = .ok s2) : s2.memory = s.memory := by
  unfold vhPush at h
  split at h
  all_goals simp_all
  subst h
  rfl

lemma vhPush_error_eq {s : VH} {v : Int} {e : Err}
    (h : vhPush s v = .error e) : e = .stkOverflow := by
  unfold vhPush at h
  split at h
  all_goals simp_all

lemma getPart_error_eq {parts : List String} {i : Nat} {e : Err}
    (h : getPart parts i = .error e) : e = .idxError := by
  unfold getPart at h
  split at h
  all_goals simp_all

lemma lookupLabel_error_eq {s : VH} {name : String} {e : Err}
    (h : lookupLabel s name = .error e) : e = .noLabel name := by
  unfold lookupLabel at h
  split at h
  all_goals simp_all

set_option maxHeartbeats 1000000 in
lemma execParts_ok_memlen :
    ∀ {s : VH} {parts : List String} {r2 : StepRes},
    execParts s parts = .ok r2 → r2.stateOf.memory.length = s.memory.length := by
  intro s parts r2 h
  match parts with
  | [] =>
    unfold execParts at h
    rw [List.head?_nil] at h
    dsimp only at h
    exact absurd h (by simp)
  | op :: rest =>
    unfold execParts at h
    rw [List.head?_cons] at h
    dsimp only at h
    by_cases hc0 : op = "LABEL"
    · rw [if_pos hc0] at h
      injection h with h
      subst h
      dsimp only [StepRes.stateOf]
      all_goals try dsimp only
      all_goals try rfl
    · rw [if_neg hc0] at h
      by_cases hc1 : op = "JMP"
      · rw [if_pos hc1] at h
        cases hs0 : getPart (op :: rest) 1 with
        | error e =>
          rw [hs0] at h
          exact absurd h (by simp)
        | ok label =>
          rw [hs0] at h
          dsimp only at h
          cases hs1 : lookupLabel s label with
          | error e =>
            rw [hs1] at h
            exact absurd h (by simp)
          | ok i =>
            rw [hs1] at h
            dsimp only at h
            injection h with h
            subst h
            dsimp only [StepRes.stateOf]
            all_goals try dsimp only
            all_goals try rfl
      · rw [if_neg hc1] at h
        by_cases hc2 : op = "PARAM"
        · rw [if_pos hc2] at h
          cases hs2 : vhPop s with
          | error e =>
            rw [hs2] at h
            exact absurd h (by simp)
          | ok vv3 =>
            obtain ⟨val, s1⟩ := vv3
            rw [hs2] at h
            dsimp only at h
            cases hs3 : getPart (op :: rest) 1 with
            | error e =>
              rw [hs3] at h
              exact absurd h (by simp)
            | ok p1 =>
              rw [hs3] at h
              dsimp only at h
              cases hs4 : setVar s1 p1 val with
              | error e =>
                rw [hs4] at h
                exact absurd h (by simp)
              | ok s2 =>
                rw [hs4] at h
                dsimp only at h
                injection h with h
                subst h
                dsimp only [StepRes.stateOf]
                all_goals try dsimp only
                all_goals rw [setVar_ok_memlen hs4]
                all_goals try dsimp only
                all_goals rw [vhPop_ok_memory hs2]
                all_goals try dsimp only
                all_goals try rfl
        · rw [if_neg hc2] at h
          by_cases hc3 : op = "MOV"
          · rw [if_pos hc3] at h
            cases hs5 : getPart (op :: rest) 1 with
            | error e =>
              rw [hs5] at h
              exact absurd h (by simp)
            | ok p1 =>
              rw [hs5] at h
              dsimp only at h
              cases hs6 : evalArg s p1 with
              | error e =>
                rw [hs6] at h
                exact absurd h (by simp)
              | ok vv7 =>
                obtain ⟨val, s1⟩ := vv7
                rw [hs6] at h
                dsimp only at h
                cases hs7 : getPart (op :: rest) 2 with
                | error e =>
                  rw [hs7] at h
                  exact absurd h (by simp)
                | ok p2 =>
                  rw [hs7] at h
                  dsimp only at h
                  cases hs8 : setVar s1 p2 val with
                  | error e =>
                    rw [hs8] at h
                    exact absurd h (by simp)
                  | ok s2 =>
                    rw [hs8] at h
                    dsimp only at h
                    injection h with h
                    subst h
                    dsimp only [StepRes.stateOf]
                    all_goals try dsimp only
                    all_goals rw [setVar_ok_memlen hs8]
                    all_goals try dsimp only
                    all_goals rw [evalArg_ok_memory hs6]
                    all_goals try dsimp only
                    all_goals try rfl
          · rw [if_neg hc3] at h
            by_cases hc4 : op = "ADD"
            · rw [if_pos hc4] at h
              cases hs9 : getPart (op :: rest) 1 with
              | error e =>
                rw [hs9] at h
                exact absurd h (by simp)
              | ok p1 =>
                rw [hs9] at h
                dsimp only at h
                cases hs10 : evalArg s p1 with
                | error e =>
                  rw [hs10] at h
                  exact absurd h (by simp)
                | ok vv11 =>
                  obtain ⟨va, s1⟩ := vv11
                  rw [hs10] at h
                  dsimp only at h
                  cases hs11 : getPart (op :: rest) 2 with
                  | error e =>
                    rw [hs11] at h
                    exact absurd h (by simp)
                  | ok p2 =>
                    rw [hs11] at h
                    dsimp only at h
                    cases hs12 : evalArg s1 p2 with
                    | error e =>
                      rw [hs12] at h
                      exact absurd h (by simp)
                    | ok vv13 =>
                      obtain ⟨vb, s2⟩ := vv13
                      rw [hs12] at h
                      dsimp only at h
                      cases hs13 : getPart (op :: rest) 3 with
                      | error e =>
                        rw [hs13] at h
                        exact absurd h (by simp)
                      | ok p3 =>
                        rw [hs13] at h
                        dsimp only at h
                        cases hs14 : setVar s2 p3 (va + vb) with
                        | error e =>
                          rw [hs14] at h
                          exact absurd h (by simp)
                        | ok s3 =>
                          rw [hs14] at h
                          dsimp only at h
                          injection h with h
                          subst h
                          dsimp only [StepRes.stateOf]
                          all_goals try dsimp only
                          all_goals rw [setVar_ok_memlen hs14]
                          all_goals try dsimp only
                          all_goals rw [evalArg_ok_memory hs12]
                          all_goals try dsimp only
                          all_goals rw [evalArg_ok_memory hs10]
                          all_goals try dsimp only
                          all_goals try rfl
            · rw [if_neg hc4] at h
              by_cases hc5 : op = "SUB"
              · rw [if_pos hc5] at h
                cases hs15 : getPart (op :: rest) 1 with
                | error e =>
                  rw [hs15] at h
                  exact absurd h (by simp)
                | ok p1 =>
                  rw [hs15] at h
                  dsimp only at h
                  cases hs16 : evalArg s p1 with
                  | error e =>
                    rw [hs16] at h
                    exact absurd h (by simp)
                  | ok vv17 =>
                    obtain ⟨va, s1⟩ := vv17
                    rw [hs16] at h
                    dsimp only at h
                    cases hs17 : getPart (op :: rest) 2 with
                    | error e =>
                      rw [hs17] at h
                      exact absurd h (by simp)
                    | ok p2 =>
                      rw [hs17] at h
                      dsimp only at h
                      cases hs18 : evalArg s1 p2 with
                      | error e =>
                        rw [hs18] at h
                        exact absurd h (by simp)
                      | ok vv19 =>
                        obtain ⟨vb, s2⟩ := vv19
                        rw [hs18] at h
                        dsimp only at h
                        cases hs19 : getPart (op :: rest) 3 with
                        | error e =>
                          rw [hs19] at h
                          exact absurd h (by simp)
                        | ok p3 =>
                          rw [hs19] at h
                          dsimp only at h
                          cases hs20 : setVar s2 p3 (va - vb) with
                          | error e =>
                            rw [hs20] at h
                            exact absurd h (by simp)
                          | ok s3 =>
                            rw [hs20] at h
                            dsimp only at h
                            injection h with h
                            subst h
                            dsimp only [StepRes.stateOf]
                            all_goals try dsimp only
                            all_goals rw [setVar_ok_memlen hs20]
                            all_goals try dsimp only
                            all_goals rw [evalArg_ok_memory hs18]
                            all_goals try dsimp only
                            all_goals rw [evalArg_ok_memory hs16]
                            all_goals try dsimp only
                            all_goals try rfl
              · rw [if_neg hc5] at h
                by_cases hc6 : op = "RET"
                · rw [if_pos hc6] at h
                  cases hs21 : getPart (op :: rest) 1 with
                  | error e =>
                    rw [hs21] at h
                    exact absurd h (by simp)
                  | ok p1 =>
                    rw [hs21] at h
                    dsimp only at h
                    cases hs22 : evalArg s p1 with
                    | error e =>
                      rw [hs22] at h
                      exact absurd h (by simp)
                    | ok vv23 =>
                      obtain ⟨val, s1⟩ := vv23
                      rw [hs22] at h
                      dsimp only at h
                      cases hs23 : vhPop s1 with
                      | error e =>
                        rw [hs23] at h
                        exact absurd h (by simp)
                      | ok vv24 =>
                        obtain ⟨retAddr, s2⟩ := vv24
                        rw [hs23] at h
                        dsimp only at h
                        cases hsc24 : (s2).scopeStack with
                        | nil =>
                          rw [hsc24] at h
                          exact absurd h (by simp)
                        | cons sc scs =>
                          rw [hsc24] at h
                          dsimp only at h
                          cases hs25 : setVar { s2 with scopeStack := (sc :: scs).dropLast } "_retval" val with
                          | error e =>
                            rw [hs25] at h
                            exact absurd h (by simp)
                          | ok s3 =>
                            rw [hs25] at h
                            dsimp only at h
                            injection h with h
                            subst h
                            dsimp only [StepRes.stateOf]
                            all_goals try dsimp only
                            all_goals rw [setVar_ok_memlen hs25]
                            all_goals try dsimp only
                            all_goals rw [vhPop_ok_memory hs23]
                            all_goals try dsimp only
                            all_goals rw [evalArg_ok_memory hs22]
                            all_goals try dsimp only
                            all_goals try rfl
                · rw [if_neg hc6] at h
                  by_cases hc7 : op = "JGE"
                  · rw [if_pos hc7] at h
                    cases hs26 : getPart (op :: rest) 1 with
                    | error e =>
                      rw [hs26] at h
                      exact absurd h (by simp)
                    | ok p1 =>
                      rw [hs26] at h
                      dsimp only at h
                      cases hs27 : evalArg s p1 with
                      | error e =>
                        rw [hs27] at h
                        exact absurd h (by simp)
                      | ok vv28 =>
                        obtain ⟨val, s1⟩ := vv28
                        rw [hs27] at h
                        dsimp only at h
                        cases hs28 : getPart (op :: rest) 2 with
                        | error e =>
                          rw [hs28] at h
                          exact absurd h (by simp)
                        | ok t =>
                          rw [hs28] at h
                          dsimp only at h
                          cases hoktoi29 : pyToInt? t.data with
                          | none =>
                            rw [hoktoi29] at h
                            exact absurd h (by simp)
                          | some n =>
                            rw [hoktoi29] at h
                            dsimp only at h
                            cases hs30 : getPart (op :: rest) 3 with
                            | error e =>
                              rw [hs30] at h
                              exact absurd h (by simp)
                            | ok label =>
                              rw [hs30] at h
                              dsimp only at h
                              split at h
                              · skip
                                cases hs31 : lookupLabel s1 label with
                                | error e =>
                                  rw [hs31] at h
                                  exact absurd h (by simp)
                                | ok i =>
                                  rw [hs31] at h
                                  dsimp only at h
                                  injection h with h
                                  subst h
                                  dsimp only [StepRes.stateOf]
                                  all_goals try dsimp only
                                  all_goals rw [evalArg_ok_memory hs27]
                                  all_goals try dsimp only
                                  all_goals try rfl
                              · skip
                                injection h with h
                                subst h
                                dsimp only [StepRes.stateOf]
                                all_goals try dsimp only
                                all_goals rw [evalArg_ok_memory hs27]
                                all_goals try dsimp only
                                all_goals try rfl
                  · rw [if_neg hc7] at h
                    by_cases hc8 : op = "JGT"
                    · rw [if_pos hc8] at h
                      cases hs32 : getPart (op :: rest) 1 with
                      | error e =>
                        rw [hs32] at h
                        exact absurd h (by simp)
                      | ok p1 =>
                        rw [hs32] at h
                        dsimp only at h
                        cases hs33 : evalArg s p1 with
                        | error e =>
                          rw [hs33] at h
                          exact absurd h (by simp)
                        | ok vv34 =>
                          obtain ⟨val, s1⟩ := vv34
                          rw [hs33] at h
                          dsimp only at h
                          cases hs34 : getPart (op :: rest) 2 with
                          | error e =>
                            rw [hs34] at h
                            exact absurd h (by simp)
                          | ok p2 =>
                            rw [hs34] at h
                            dsimp only at h
                            cases hs35 : evalArg s1 p2 with
                            | error e =>
                              rw [hs35] at h
                              exact absurd h (by simp)
                            | ok vv36 =>
                              obtain ⟨w, s2⟩ := vv36
                              rw [hs35] at h
                              dsimp only at h
                              cases hs36 : getPart (op :: rest) 3 with
                              | error e =>
                                rw [hs36] at h
                                exact absurd h (by simp)
                              | ok label =>
                                rw [hs36] at h
                                dsimp only at h
                                split at h
                                · skip
                                  cases hs37 : lookupLabel s2 label with
                                  | error e =>
                                    rw [hs37] at h
                                    exact absurd h (by simp)
                                  | ok i =>
                                    rw [hs37] at h
                                    dsimp only at h
                                    injection h with h
                                    subst h
                                    dsimp only [StepRes.stateOf]
                                    all_goals try dsimp only
                                    all_goals rw [evalArg_ok_memory hs35]
                                    all_goals try dsimp only
                                    all_goals rw [evalArg_ok_memory hs33]
                                    all_goals try dsimp only
                                    all_goals try rfl
                                · skip
                                  injection h with h
                                  subst h
                                  dsimp only [StepRes.stateOf]
                                  all_goals try dsimp only
                                  all_goals rw [evalArg_ok_memory hs35]
                                  all_goals try dsimp only
                                  all_goals rw [evalArg_ok_memory hs33]
                                  all_goals try dsimp only
                                  all_goals try rfl
                    · rw [if_neg hc8] at h
                      by_cases hc9 : op = "PUSH"
                      · rw [if_pos hc9] at h
                        cases hs38 : getPart (op :: rest) 1 with
                        | error e =>
                          rw [hs38] at h
                          exact absurd h (by simp)
                        | ok p1 =>
                          rw [hs38] at h
                          dsimp only at h
                          cases hs39 : evalArg s p1 with
                          | error e =>
                            rw [hs39] at h
                            exact absurd h (by simp)
                          | ok vv40 =>
                            obtain ⟨val, s1⟩ := vv40
                            rw [hs39] at h
                            dsimp only at h
                            cases hs40 : vhPush s1 (val) with
                            | error e =>
                              rw [hs40] at h
                              exact absurd h (by simp)
                            | ok s2 =>
                              rw [hs40] at h
                              dsimp only at h
                              injection h with h
                              subst h
                              dsimp only [StepRes.stateOf]
                              all_goals try dsimp only
                              all_goals rw [vhPush_ok_memory hs40]
                              all_goals try dsimp only
                              all_goals rw [evalArg_ok_memory hs39]
                              all_goals try dsimp only
                              all_goals try rfl
                      · rw [if_neg hc9] at h
                        by_cases hc10 : op = "CALL"
                        · rw [if_pos hc10] at h
                          cases hs41 : vhPop s with
                          | error e =>
                            rw [hs41] at h
                            exact absurd h (by simp)
                          | ok vv42 =>
                            obtain ⟨arg, s1⟩ := vv42
                            rw [hs41] at h
                            dsimp only at h
                            cases hs42 : vhPush s1 (s1.pc + 1) with
                            | error e =>
                              rw [hs42] at h
                              exact absurd h (by simp)
                            | ok s2 =>
                              rw [hs42] at h
                              dsimp only at h
                              cases hs43 : vhPush s2 (arg) with
                              | error e =>
                                rw [hs43] at h
                                exact absurd h (by simp)
                              | ok s3 =>
                                rw [hs43] at h
                                dsimp only at h
                                cases hs44 : getPart (op :: rest) 1 with
                                | error e =>
                                  rw [hs44] at h
                                  exact absurd h (by simp)
                                | ok label =>
                                  rw [hs44] at h
                                  dsimp only at h
                                  cases hs45 : lookupLabel { s3 with scopeStack := s3.scopeStack ++ [[]] } label with
                                  | error e =>
                                    rw [hs45] at h
                                    exact absurd h (by simp)
                                  | ok i =>
                                    rw [hs45] at h
                                    dsimp only at h
                                    injection h with h
                                    subst h
                                    dsimp only [StepRes.stateOf]
                                    all_goals try dsimp only
                                    all_goals rw [vhPush_ok_memory hs43]
                                    all_goals try dsimp only
                                    all_goals rw [vhPush_ok_memory hs42]
                                    all_goals try dsimp only
                                    all_goals rw [vhPop_ok_memory hs41]
                                    all_goals try dsimp only
                                    all_goals try rfl
                        · rw [if_neg hc10] at h
                          by_cases hc11 : op = "PRINT"
                          · rw [if_pos hc11] at h
                            cases hs46 : getPart (op :: rest) 1 with
                            | error e =>
                              rw [hs46] at h
                              exact absurd h (by simp)
                            | ok p1 =>
                              rw [hs46] at h
                              dsimp only at h
                              cases hs47 : evalArg s p1 with
                              | error e =>
                                rw [hs47] at h
                                exact absurd h (by simp)
                              | ok vv48 =>
                                obtain ⟨val, s1⟩ := vv48
                                rw [hs47] at h
                                dsimp only at h
                                injection h with h
                                subst h
                                dsimp only [StepRes.stateOf]
                                all_goals try dsimp only
                                all_goals rw [evalArg_ok_memory hs47]
                                all_goals try dsimp only
                                all_goals try rfl
                          · rw [if_neg hc11] at h
                            by_cases hc12 : op = "HALT"
                            · rw [if_pos hc12] at h
                              injection h with h
                              subst h
                              dsimp only [StepRes.stateOf]
                              all_goals try dsimp only
                              all_goals try rfl
                            · rw [if_neg hc12] at h
                              injection h with h
                              subst h
                              rfl

set_option maxHeartbeats 1000000 in
lemma execParts_oob :
    ∀ {s : VH} {parts : List String} {addr : Nat},
    execParts s parts = .error (.memOOB addr) → s.memory.length ≤ addr := by
  intro s parts addr h
  match parts with
  | [] =>
    unfold execParts at h
    rw [List.head?_nil] at h
    dsimp only at h
    exact absurd h (by simp)
  | op :: rest =>
    unfold execParts at h
    rw [List.head?_cons] at h
    dsimp only at h
    by_cases hc0 : op = "LABEL"
    · rw [if_pos hc0] at h
      exact absurd h (by simp)
    · rw [if_neg hc0] at h
      by_cases hc1 : op = "JMP"
      · rw [if_pos hc1] at h
        cases hs0 : getPart (op :: rest) 1 with
        | error e =>
          rw [hs0] at h
          dsimp only at h
          injection h with h
          subst h
          exact absurd (getPart_error_eq hs0) (by simp)
        | ok label =>
          rw [hs0] at h
          dsimp only at h
          cases hs1 : lookupLabel s label with
          | error e =>
            rw [hs1] at h
            dsimp only at h
            injection h with h
            subst h
            exact absurd (lookupLabel_error_eq hs1) (by simp)
          | ok i =>
            rw [hs1] at h
            dsimp only at h
            exact absurd h (by simp)
      · rw [if_neg hc1] at h
        by_cases hc2 : op = "PARAM"
        · rw [if_pos hc2] at h
          cases hs2 : vhPop s with
          | error e =>
            rw [hs2] at h
            dsimp only at h
            injection h with h
            subst h
            exact absurd (vhPop_error_eq hs2) (by simp)
          | ok vv3 =>
            obtain ⟨val, s1⟩ := vv3
            rw [hs2] at h
            dsimp only at h
            cases hs3 : getPart (op :: rest) 1 with
            | error e =>
              rw [hs3] at h
              dsimp only at h
              injection h with h
              subst h
              exact absurd (getPart_error_eq hs3) (by simp)
            | ok p1 =>
              rw [hs3] at h
              dsimp only at h
              cases hs4 : setVar s1 p1 val with
              | error e =>
                rw [hs4] at h
                dsimp only at h
                injection h with h
                subst h
                have hle := setVar_oob hs4
                try dsimp only at hle
                rw [vhPop_ok_memory hs2] at hle
                try dsimp only at hle
                exact hle
              | ok s2 =>
                rw [hs4] at h
                dsimp only at h
                exact absurd h (by simp)
        · rw [if_neg hc2] at h
          by_cases hc3 : op = "MOV"
          · rw [if_pos hc3] at h
            cases hs5 : getPart (op :: rest) 1 with
            | error e =>
              rw [hs5] at h
              dsimp only at h
              injection h with h
              subst h
              exact absurd (getPart_error_eq hs5) (by simp)
            | ok p1 =>
              rw [hs5] at h
              dsimp only at h
              cases hs6 : evalArg s p1 with
              | error e =>
                rw [hs6] at h
                dsimp only at h
                injection h with h
                subst h
                have hle := evalArg_oob hs6
                exact hle
              | ok vv7 =>
                obtain ⟨val, s1⟩ := vv7
                rw [hs6] at h
                dsimp only at h
                cases hs7 : getPart (op :: rest) 2 with
                | error e =>
                  rw [hs7] at h
                  dsimp only at h
                  injection h with h
                  subst h
                  exact absurd (getPart_error_eq hs7) (by simp)
                | ok p2 =>
                  rw [hs7] at h
                  dsimp only at h
                  cases hs8 : setVar s1 p2 val with
                  | error e =>
                    rw [hs8] at h
                    dsimp only at h
                    injection h with h
                    subst h
                    have hle := setVar_oob hs8
                    try dsimp only at hle
                    rw [evalArg_ok_memory hs6] at hle
                    try dsimp only at hle
                    exact hle
                  | ok s2 =>
                    rw [hs8] at h
                    dsimp only at h
                    exact absurd h (by simp)
          · rw [if_neg hc3] at h
            by_cases hc4 : op = "ADD"
            · rw [if_pos hc4] at h
              cases hs9 : getPart (op :: rest) 1 with
              | error e =>
                rw [hs9] at h
                dsimp only at h
                injection h with h
                subst h
                exact absurd (getPart_error_eq hs9) (by simp)
              | ok p1 =>
                rw [hs9] at h
                dsimp only at h
                cases hs10 : evalArg s p1 with
                | error e =>
                  rw [hs10] at h
                  dsimp only at h
                  injection h with h
                  subst h
                  have hle := evalArg_oob hs10
                  exact hle
                | ok vv11 =>
                  obtain ⟨va, s1⟩ := vv11
                  rw [hs10] at h
                  dsimp only at h
                  cases hs11 : getPart (op :: rest) 2 with
                  | error e =>
                    rw [hs11] at h
                    dsimp only at h
                    injection h with h
                    subst h
                    exact absurd (getPart_error_eq hs11) (by simp)
                  | ok p2 =>
                    rw [hs11] at h
                    dsimp only at h
                    cases hs12 : evalArg s1 p2 with
                    | error e =>
                      rw [hs12] at h
                      dsimp only at h
                      injection h with h
                      subst h
                      have hle := evalArg_oob hs12
                      rw [evalArg_ok_memory hs10] at hle
                      try dsimp only at hle
                      exact hle
                    | ok vv13 =>
                      obtain ⟨vb, s2⟩ := vv13
                      rw [hs12] at h
                      dsimp only at h
                      cases hs13 : getPart (op :: rest) 3 with
                      | error e =>
                        rw [hs13] at h
                        dsimp only at h
                        injection h with h
                        subst h
                        exact absurd (getPart_error_eq hs13) (by simp)
                      | ok p3 =>
                        rw [hs13] at h
                        dsimp only at h
                        cases hs14 : setVar s2 p3 (va + vb) with
                        | error e =>
                          rw [hs14] at h
                          dsimp only at h
                          injection h with h
                          subst h
                          have hle := setVar_oob hs14
                          try dsimp only at hle
                          rw [evalArg_ok_memory hs12] at hle
                          try dsimp only at hle
                          rw [evalArg_ok_memory hs10] at hle
                          try dsimp only at hle
                          exact hle
                        | ok s3 =>
                          rw [hs14] at h
                          dsimp only at h
                          exact absurd h (by simp)
            · rw [if_neg hc4] at h
              by_cases hc5 : op = "SUB"
              · rw [if_pos hc5] at h
                cases hs15 : getPart (op :: rest) 1 with
                | error e =>
                  rw [hs15] at h
                  dsimp only at h
                  injection h with h
                  subst h
                  exact absurd (getPart_error_eq hs15) (by simp)
                | ok p1 =>
                  rw [hs15] at h
                  dsimp only at h
                  cases hs16 : evalArg s p1 with
                  | error e =>
                    rw [hs16] at h
                    dsimp only at h
                    injection h with h
                    subst h
                    have hle := evalArg_oob hs16
                    exact hle
                  | ok vv17 =>
                    obtain ⟨va, s1⟩ := vv17
                    rw [hs16] at h
                    dsimp only at h
                    cases hs17 : getPart (op :: rest) 2 with
                    | error e =>
                      rw [hs17] at h
                      dsimp only at h
                      injection h with h
                      subst h
                      exact absurd (getPart_error_eq hs17) (by simp)
                    | ok p2 =>
                      rw [hs17] at h
                      dsimp only at h
                      cases hs18 : evalArg s1 p2 with
                      | error e =>
                        rw [hs18] at h
                        dsimp only at h
                        injection h with h
                        subst h
                        have hle := evalArg_oob hs18
                        rw [evalArg_ok_memory hs16] at hle
                        try dsimp only at hle
                        exact hle
                      | ok vv19 =>
                        obtain ⟨vb, s2⟩ := vv19
                        rw [hs18] at h
                        dsimp only at h
                        cases hs19 : getPart (op :: rest) 3 with
                        | error e =>
                          rw [hs19] at h
                          dsimp only at h
                          injection h with h
                          subst h
                          exact absurd (getPart_error_eq hs19) (by simp)
                        | ok p3 =>
                          rw [hs19] at h
                          dsimp only at h
                          cases hs20 : setVar s2 p3 (va - vb) with
                          | error e =>
                            rw [hs20] at h
                            dsimp only at h
                            injection h with h
                            subst h
                            have hle := setVar_oob hs20
                            try dsimp only at hle
                            rw [evalArg_ok_memory hs18] at hle
                            try dsimp only at hle
                            rw [evalArg_ok_memory hs16] at hle
                            try dsimp only at hle
                            exact hle
                          | ok s3 =>
                            rw [hs20] at h
                            dsimp only at h
                            exact absurd h (by simp)
              · rw [if_neg hc5] at h
                by_cases hc6 : op = "RET"
                · rw [if_pos hc6] at h
                  cases hs21 : getPart (op :: rest) 1 with
                  | error e =>
                    rw [hs21] at h
                    dsimp only at h
                    injection h with h
                    subst h
                    exact absurd (getPart_error_eq hs21) (by simp)
                  | ok p1 =>
                    rw [hs21] at h
                    dsimp only at h
                    cases hs22 : evalArg s p1 with
                    | error e =>
                      rw [hs22] at h
                      dsimp only at h
                      injection h with h
                      subst h
                      have hle := evalArg_oob hs22
                      exact hle
                    | ok vv23 =>
                      obtain ⟨val, s1⟩ := vv23
                      rw [hs22] at h
                      dsimp only at h
                      cases hs23 : vhPop s1 with
                      | error e =>
                        rw [hs23] at h
                        dsimp only at h
                        injection h with h
                        subst h
                        exact absurd (vhPop_error_eq hs23) (by simp)
                      | ok vv24 =>
                        obtain ⟨retAddr, s2⟩ := vv24
                        rw [hs23] at h
                        dsimp only at h
                        cases hsc24 : (s2).scopeStack with
                        | nil =>
                          rw [hsc24] at h
                          exact absurd h (by simp)
                        | cons sc scs =>
                          rw [hsc24] at h
                          dsimp only at h
                          cases hs25 : setVar { s2 with scopeStack := (sc :: scs).dropLast } "_retval" val with
                          | error e =>
                            rw [hs25] at h
                            dsimp only at h
                            injection h with h
                            subst h
                            have hle := setVar_oob hs25
                            try dsimp only at hle
                            rw [vhPop_ok_memory hs23] at hle
                            try dsimp only at hle
                            rw [evalArg_ok_memory hs22] at hle
                            try dsimp only at hle
                            exact hle
                          | ok s3 =>
                            rw [hs25] at h
                            dsimp only at h
                            exact absurd h (by simp)
                · rw [if_neg hc6] at h
                  by_cases hc7 : op = "JGE"
                  · rw [if_pos hc7] at h
                    cases hs26 : getPart (op :: rest) 1 with
                    | error e =>
                      rw [hs26] at h
                      dsimp only at h
                      injection h with h
                      subst h
                      exact absurd (getPart_error_eq hs26) (by simp)
                    | ok p1 =>
                      rw [hs26] at h
                      dsimp only at h
                      cases hs27 : evalArg s p1 with
                      | error e =>
                        rw [hs27] at h
                        dsimp only at h
                        injection h with h
                        subst h
                        have hle := evalArg_oob hs27
                        exact hle
                      | ok vv28 =>
                        obtain ⟨val, s1⟩ := vv28
                        rw [hs27] at h
                        dsimp only at h
                        cases hs28 : getPart (op :: rest) 2 with
                        | error e =>
                          rw [hs28] at h
                          dsimp only at h
                          injection h with h
                          subst h
                          exact absurd (getPart_error_eq hs28) (by simp)
                        | ok t =>
                          rw [hs28] at h
                          dsimp only at h
                          cases hoobtoi29 : pyToInt? t.data with
                          | none =>
                            rw [hoobtoi29] at h
                            exact absurd h (by simp)
                          | some n =>
                            rw [hoobtoi29] at h
                            dsimp only at h
                            cases hs30 : getPart (op :: rest) 3 with
                            | error e =>
                              rw [hs30] at h
                              dsimp only at h
                              injection h with h
                              subst h
                              exact absurd (getPart_error_eq hs30) (by simp)
                            | ok label =>
                              rw [hs30] at h
                              dsimp only at h
                              split at h
                              · skip
                                cases hs31 : lookupLabel s1 label with
                                | error e =>
                                  rw [hs31] at h
                                  dsimp only at h
                                  injection h with h
                                  subst h
                                  exact absurd (lookupLabel_error_eq hs31) (by simp)
                                | ok i =>
                                  rw [hs31] at h
                                  dsimp only at h
                                  exact absurd h (by simp)
                              · skip
                                exact absurd h (by simp)
                  · rw [if_neg hc7] at h
                    by_cases hc8 : op = "JGT"
                    · rw [if_pos hc8] at h
                      cases hs32 : getPart (op :: rest) 1 with
                      | error e =>
                        rw [hs32] at h
                        dsimp only at h
                        injection h with h
                        subst h
                        exact absurd (getPart_error_eq hs32) (by simp)
                      | ok p1 =>
                        rw [hs32] at h
                        dsimp only at h
                        cases hs33 : evalArg s p1 with
                        | error e =>
                          rw [hs33] at h
                          dsimp only at h
                          injection h with h
                          subst h
                          have hle := evalArg_oob hs33
                          exact hle
                        | ok vv34 =>
                          obtain ⟨val, s1⟩ := vv34
                          rw [hs33] at h
                          dsimp only at h
                          cases hs34 : getPart (op :: rest) 2 with
                          | error e =>
                            rw [hs34] at h
                            dsimp only at h
                            injection h with h
                            subst h
                            exact absurd (getPart_error_eq hs34) (by simp)
                          | ok p2 =>
                            rw [hs34] at h
                            dsimp only at h
                            cases hs35 : evalArg s1 p2 with
                            | error e =>
                              rw [hs35] at h
                              dsimp only at h
                              injection h with h
                              subst h
                              have hle := evalArg_oob hs35
                              rw [evalArg_ok_memory hs33] at hle
                              try dsimp only at hle
                              exact hle
                            | ok vv36 =>
                              obtain ⟨w, s2⟩ := vv36
                              rw [hs35] at h
                              dsimp only at h
                              cases hs36 : getPart (op :: rest) 3 with
                              | error e =>
                                rw [hs36] at h
                                dsimp only at h
                                injection h with h
                                subst h
                                exact absurd (getPart_error_eq hs36) (by simp)
                              | ok label =>
                                rw [hs36] at h
                                dsimp only at h
                                split at h
                                · skip
                                  cases hs37 : lookupLabel s2 label with
                                  | error e =>
                                    rw [hs37] at h
                                    dsimp only at h
                                    injection h with h
                                    subst h
                                    exact absurd (lookupLabel_error_eq hs37) (by simp)
                                  | ok i =>
                                    rw [hs37] at h
                                    dsimp only at h
                                    exact absurd h (by simp)
                                · skip
                                  exact absurd h (by simp)
                    · rw [if_neg hc8] at h
                      by_cases hc9 : op = "PUSH"
                      · rw [if_pos hc9] at h
                        cases hs38 : getPart (op :: rest) 1 with
                        | error e =>
                          rw [hs38] at h
                          dsimp only at h
                          injection h with h
                          subst h
                          exact absurd (getPart_error_eq hs38) (by simp)
                        | ok p1 =>
                          rw [hs38] at h
                          dsimp only at h
                          cases hs39 : evalArg s p1 with
                          | error e =>
                            rw [hs39] at h
                            dsimp only at h
                            injection h with h
                            subst h
                            have hle := evalArg_oob hs39
                            exact hle
                          | ok vv40 =>
                            obtain ⟨val, s1⟩ := vv40
                            rw [hs39] at h
                            dsimp only at h
                            cases hs40 : vhPush s1 (val) with
                            | error e =>
                              rw [hs40] at h
                              dsimp only at h
                              injection h with h
                              subst h
                              exact absurd (vhPush_error_eq hs40) (by simp)
                            | ok s2 =>
                              rw [hs40] at h
                              dsimp only at h
                              exact absurd h (by simp)
                      · rw [if_neg hc9] at h
                        by_cases hc10 : op = "CALL"
                        · rw [if_pos hc10] at h
                          cases hs41 : vhPop s with
                          | error e =>
                            rw [hs41] at h
                            dsimp only at h
                            injection h with h
                            subst h
                            exact absurd (vhPop_error_eq hs41) (by simp)
                          | ok vv42 =>
                            obtain ⟨arg, s1⟩ := vv42
                            rw [hs41] at h
                            dsimp only at h
                            cases hs42 : vhPush s1 (s1.pc + 1) with
                            | error e =>
                              rw [hs42] at h
                              dsimp only at h
                              injection h with h
                              subst h
                              exact absurd (vhPush_error_eq hs42) (by simp)
                            | ok s2 =>
                              rw [hs42] at h
                              dsimp only at h
                              cases hs43 : vhPush s2 (arg) with
                              | error e =>
                                rw [hs43] at h
                                dsimp only at h
                                injection h with h
                                subst h
                                exact absurd (vhPush_error_eq hs43) (by simp)
                              | ok s3 =>
                                rw [hs43] at h
                                dsimp only at h
                                cases hs44 : getPart (op :: rest) 1 with
                                | error e =>
                                  rw [hs44] at h
                                  dsimp only at h
                                  injection h with h
                                  subst h
                                  exact absurd (getPart_error_eq hs44) (by simp)
                                | ok label =>
                                  rw [hs44] at h
                                  dsimp only at h
                                  cases hs45 : lookupLabel { s3 with scopeStack := s3.scopeStack ++ [[]] } label with
                                  | error e =>
                                    rw [hs45] at h
                                    dsimp only at h
                                    injection h with h
                                    subst h
                                    exact absurd (lookupLabel_error_eq hs45) (by simp)
                                  | ok i =>
                                    rw [hs45] at h
                                    dsimp only at h
                                    exact absurd h (by simp)
                        · rw [if_neg hc10] at h
                          by_cases hc11 : op = "PRINT"
                          · rw [if_pos hc11] at h
                            cases hs46 : getPart (op :: rest) 1 with
                            | error e =>
                              rw [hs46] at h
                              dsimp only at h
                              injection h with h
                              subst h
                              exact absurd (getPart_error_eq hs46) (by simp)
                            | ok p1 =>
                              rw [hs46] at h
                              dsimp only at h
                              cases hs47 : evalArg s p1 with
                              | error e =>
                                rw [hs47] at h
                                dsimp only at h
                                injection h with h
                                subst h
                                have hle := evalArg_oob hs47
                                exact hle
                              | ok vv48 =>
                                obtain ⟨val, s1⟩ := vv48
                                rw [hs47] at h
                                dsimp only at h
                                exact absurd h (by simp)
                          · rw [if_neg hc11] at h
                            by_cases hc12 : op = "HALT"
                            · rw [if_pos hc12] at h
                              exact absurd h (by simp)
                            · rw [if_neg hc12] at h
                              exact absurd h (by simp)

lemma pyIndex_error_eq {l : List String} {i : Int} {e : Err}
    (h : pyIndex l i = .error e) : e = .idxError := by
  unfold pyIndex at h
  repeat' split at h
  all_goals simp_all

lemma runLoop_oob :
    ∀ (fuel : Nat) (s : VH) (a : Nat),
    runLoop fuel s = .error (.memOOB a) → s.memory.length ≤ a := by
  intro fuel
  induction fuel with
  | zero =>
    intro s a h
    exact absurd h (by simp [runLoop])
  | succ n ih =>
    intro s a h
    unfold runLoop at h
    split at h
    · cases hpi : pyIndex s.program s.pc with
      | error e =>
        rw [hpi] at h
        dsimp only at h
        injection h with h
        subst h
        exact absurd (pyIndex_error_eq hpi) (by simp)
      | ok instr =>
        rw [hpi] at h
        dsimp only at h
        cases hstep : execInstr s instr with
        | error e =>
          rw [hstep] at h
          dsimp only at h
          injection h with h
          subst h
          exact execParts_oob hstep
        | ok r =>
          cases r with
          | stop s2 =>
            rw [hstep] at h
            dsimp only at h
            exact absurd h (by simp)
          | cont s2 =>
            rw [hstep] at h
            dsimp only at h
            have h2 := ih s2 a h
            have h3 := execParts_ok_memlen hstep
            dsimp only [StepRes.stateOf] at h3
            omega
    · exact absurd h (by simp)

lemma buildLabels_error_eq :
    ∀ (l : List String) (i : Nat) (acc : List (String × Nat)) (e : Err),
    buildLabels l i acc = .error e → e = .idxError := by
  intro l
  induction l with
  | nil =>
    intro i acc e h
    exact absurd h (by simp [buildLabels])
  | cons x xs ih =>
    intro i acc e h
    unfold buildLabels at h
    repeat' split at h
    all_goals
      first
        | exact ih _ _ _ h
        | simp_all

lemma loadProgram_init_memory {code : List String} {vm : VH}
    (h : loadProgram (VH.init 512 16) code = .ok vm) : vm.memory.length = 512 := by
  unfold loadProgram at h
  split at h
  · exact absurd h (by simp)
  · injection h with h
    subst h
    simp [VH.init]

lemma loadProgram_error_eq {s : VH} {code : List String} {e : Err}
    (h : loadProgram s code = .error e) : e = .idxError := by
  unfold loadProgram at h
  split at h
  next e2 hb =>
    injection h with h
    subst h
    exact buildLabels_error_eq _ _ _ _ hb
  next hb => exact absurd h (by simp)

lemma execute_oob_addr :
    ∀ (code : List String) (fuel : Nat) (a : Nat),
    execute code fuel = .error (.memOOB a) → 512 ≤ a := by
  intro code fuel a h
  unfold execute at h
  split at h
  next e hlp =>
    injection h with h
    subst h
    exact absurd (loadProgram_error_eq hlp) (by simp)
  next vm hlp =>
    unfold VH.run at h
    have h2 := runLoop_oob _ _ _ h
    dsimp only at h2
    have h3 := loadProgram_init_memory hlp
    omega

lemma splitChAux_length (sep : Char) :
    ∀ (l acc : List Char),
    (splitChAux sep l acc).length = (l.countP (fun c => c = sep)) + 1 := by
  intro l
  induction l with
  | nil => intro acc; simp [splitChAux]
  | cons c cs ih =>
    intro acc
    unfold splitChAux
    split
    · simp only [List.length_cons, ih, List.countP_cons]
      simp_all
    · simp only [ih, List.countP_cons]
      simp_all

lemma contains_of_splitCh_pair {sep : Char} {s : String} {a b : String}
    (h : pySplitCh sep s = [a, b]) : containsCh sep s = true := by
  unfold pySplitCh splitChL at h
  have hlen := congrArg List.length h
  rw [List.length_map, splitChAux_length] at hlen
  simp only [List.length_cons, List.length_nil] at hlen
  unfold containsCh
  rw [List.any_eq_true]
  have hpos : 0 < s.data.countP (fun c => c = sep) := by omega
  rw [List.countP_pos] at hpos
  obtain ⟨c, hc, hp⟩ := hpos
  exact ⟨c, hc, hp⟩

lemma contains_of_splitCh_long {sep : Char} {s : String}
    (h : 3 ≤ (pySplitCh sep s).length) : containsCh sep s = true := by
  unfold pySplitCh splitChL at h
  rw [List.length_map, splitChAux_length] at h
  unfold containsCh
  rw [List.any_eq_true]
  have hpos : 0 < s.data.countP (fun c => c = sep) := by omega
  rw [List.countP_pos] at hpos
  obtain ⟨c, hc, hp⟩ := hpos
  exact ⟨c, hc, hp⟩


lemma parseLoop_total :
    ∀ (ls fns : List String) (stack : List Frame),
    stack ≠ [] →
    (stack.dropLast.all (fun f => f.opener.isSome) = true) →
    (∀ n : Nat, ((ls.take n).countP (fun l => isEndForm (classify l))) ≤
          ((ls.take n).countP (fun l => isOpenerForm (classify l))) + (stack.length - 1)) →
    (∀ l ∈ ls, classify l ≠ .funknown) →
    ∃ out, parseLoop ls fns stack = .ok out := by
  intro ls
  induction ls with
  | nil =>
    intro fns stack hne hall hbal hknown
    exact ⟨_, rfl⟩
  | cons l rest ih =>
    intro fns stack hne hall hbal hknown
    have hkl : classify l ≠ .funknown := hknown l (List.mem_cons_self l rest)
    have hkrest : ∀ x ∈ rest, classify x ≠ .funknown :=
      fun x hx => hknown x (List.mem_cons_of_mem l hx)
    obtain ⟨f, fs, rfl⟩ : ∃ f fs, stack = f :: fs := by
      cases stack with
      | nil => exact absurd rfl hne
      | cons f fs => exact ⟨f, fs, rfl⟩
    cases hcl : classify l with
    | fdef n a =>
      simp only [parseLoop, hcl]
      apply ih
      · simp
      · rw [List.dropLast_cons_of_ne_nil (by simp)]
        simp only [List.all_cons, Option.isSome_some, Bool.true_and]
        exact hall
      · intro n2
        have hb := hbal (n2 + 1)
        simp [List.take_succ_cons, List.countP_cons, hcl, isEndForm, isOpenerForm,
          List.length_cons] at hb ⊢
        omega
      · exact hkrest
    | fif c =>
      simp only [parseLoop, hcl]
      apply ih
      · simp
      · rw [List.dropLast_cons_of_ne_nil (by simp)]
        simp only [List.all_cons, Option.isSome_some, Bool.true_and]
        exact hall
      · intro n2
        have hb := hbal (n2 + 1)
        simp [List.take_succ_cons, List.countP_cons, hcl, isEndForm, isOpenerForm,
          List.length_cons] at hb ⊢
        omega
      · exact hkrest
    | ffor v a b =>
      simp only [parseLoop, hcl]
      apply ih
      · simp
      · rw [List.dropLast_cons_of_ne_nil (by simp)]
        simp only [List.all_cons, Option.isSome_some, Bool.true_and]
        exact hall
      · intro n2
        have hb := hbal (n2 + 1)
        simp [List.take_succ_cons, List.countP_cons, hcl, isEndForm, isOpenerForm,
          List.length_cons] at hb ⊢
        omega
      · exact hkrest
    | fret e =>
      simp only [parseLoop, hcl]
      apply ih
      · simp
      · cases fs with
        | nil => simp
        | cons g gs =>
          rw [List.dropLast_cons_of_ne_nil (by simp)] at hall ⊢
          simp only [List.all_cons] at hall ⊢
          exact hall
      · intro n2
        have hb := hbal (n2 + 1)
        simp [List.take_succ_cons, List.countP_cons, hcl, isEndForm, isOpenerForm,
          List.length_cons] at hb ⊢
        omega
      · exact hkrest
    | fprint e =>
      simp only [parseLoop, hcl]
      apply ih
      · simp
      · cases fs with
        | nil => simp
        | cons g gs =>
          rw [List.dropLast_cons_of_ne_nil (by simp)] at hall ⊢
          simp only [List.all_cons] at hall ⊢
          exact hall
      · intro n2
        have hb := hbal (n2 + 1)
        simp [List.take_succ_cons, List.countP_cons, hcl, isEndForm, isOpenerForm,
          List.length_cons] at hb ⊢
        omega
      · exact hkrest
    | fassign v e =>
      simp only [parseLoop, hcl]
      apply ih
      · simp
      · cases fs with
        | nil => simp
        | cons g gs =>
          rw [List.dropLast_cons_of_ne_nil (by simp)] at hall ⊢
          simp only [List.all_cons] at hall ⊢
          exact hall
      · intro n2
        have hb := hbal (n2 + 1)
        simp [List.take_succ_cons, List.countP_cons, hcl, isEndForm, isOpenerForm,
          List.length_cons] at hb ⊢
        omega
      · exact hkrest
    | fend =>
      have hb1 := hbal 1
      simp [List.take_succ_cons, List.take_zero, List.countP_cons, List.countP_nil, hcl,
        isEndForm, isOpenerForm, List.length_cons] at hb1
      obtain ⟨g, gs, rfl⟩ : ∃ g gs, fs = g :: gs := by
        cases fs with
        | nil => simp at hb1
        | cons g gs => exact ⟨g, gs, rfl⟩
      have hfsome : f.opener.isSome := by
        rw [List.dropLast_cons_of_ne_nil (by simp)] at hall
        simp only [List.all_cons, Bool.and_eq_true] at hall
        exact hall.1
      obtain ⟨o, ho⟩ := Option.isSome_iff_exists.mp hfsome
      simp only [parseLoop, hcl, ho]
      apply ih
      · simp
      · cases gs with
        | nil => simp
        | cons g2 gs2 =>
          rw [List.dropLast_cons_of_ne_nil (by simp)] at hall ⊢
          simp only [List.all_cons, Bool.and_eq_true] at hall
          rw [List.dropLast_cons_of_ne_nil (by simp)] at hall
          simp only [List.all_cons, Bool.and_eq_true] at hall
          simp only [List.all_cons, Bool.and_eq_true]
          exact hall.2
      · intro n2
        have hb := hbal (n2 + 1)
        simp [List.take_succ_cons, List.countP_cons, hcl, isEndForm, isOpenerForm,
          List.length_cons] at hb ⊢
        omega
      · exact hkrest
    | funknown => exact absurd hcl hkl


/-! ### Theorems -/

/-- C1: compiling and then executing the fixed fibonacci source program
yields exactly the output sequence `["34"]` (5000 steps of fuel are more
than the roughly 1400 the run needs). -/
theorem fib_end_to_end :
    (compile fibSource).bind (fun asm => execute asm 5000) = .ok ["34"] := rfl

/-- C8: execution is a pure function of the assembly sequence (and the step
budget): two invocations of `execute` on the same fixed sequence return
identical output sequences.  The embedding is pure precisely because
`execute` in the source constructs a fresh `VirtualHardware` per call and
shares no state across runs. -/
theorem execute_deterministic (code : List String) (fuel : Nat) :
    execute code fuel = execute code fuel := rfl

/-- C2 counterexample: `_retval` does not resolve through the global scope.
In a state at call depth 1 whose global scope already binds `_retval` at
address 0, `get_var_addr("_retval")` ignores that binding, allocates the
next free address 7 in the current (top) scope, and returns 7 - so the
address bound to `_retval` differs across call depths. -/
theorem retval_resolves_in_top_scope_cex :
    getVarAddr retvalState "_retval" =
      .ok (some 7, { retvalState with
        nextMemAddr := 8
        scopeStack := [[("_retval", 0)], [("_retval", 7)]] }) ∧
    (retvalState.scopeStack.headD []).lookup "_retval" = some 0 := ⟨rfl, rfl⟩

/-- C3 counterexample: `compile_expr` does not split at the first `+` into
exactly two substrings regardless of the number of `+` characters - with
two `+` signs the tuple unpacking of `split("+")` raises `ValueError`; and
`"a - b + c"` compiles to code computing `(a - b) + c`, not `a - (b + c)`:
the pipeline on `x = 0 - 1 + 1` prints `"0"` (it would print `"-2"` under
`a - (b + c)`). -/
theorem plus_split_cex :
    compileExpr [] "1+1+1" 0 = .error .valError ∧
    compileExpr [] "a - b + c" 0 =
      .ok ("tmp2", ["SUB a b tmp1", "ADD tmp1 c tmp2"], 2) ∧
    (compile ["x = 0 - 1 + 1", "print x"]).bind (fun asm => execute asm 100) =
      .ok ["0"] := ⟨rfl, rfl, rfl⟩

/-- C4 counterexample: lowering `If{"n < a + b", []}` discards the
right-hand side `a + b` entirely - the emitted sequence contains no
evaluate-right instructions (no `ADD`), only the evaluate-left code (empty
for the bare variable `n`), the `JGE` against the literal 2, and the end
label. -/
theorem if_lowering_cex :
    compileStmt [] (.ifS "n < a + b" []) 0 =
      .ok (["JGE n 2 tmp1_end", "LABEL tmp1_end"], 1) ∧
    (["JGE n 2 tmp1_end", "LABEL tmp1_end"].all
      (fun i => !(startsWithL ['A', 'D', 'D'] i.data))) = true := ⟨rfl, rfl⟩

/-- C5 counterexample: a top-level `if` statement is not compiled into the
main block - the whole program `if x < 1 / print x / end` compiles to just
the three-instruction skeleton, the conditional having been silently
dropped by `compile_all`. -/
theorem compile_all_drops_top_if_cex :
    compile ["if x < 1", "print x", "end"] =
      .ok ["JMP main", "LABEL main", "HALT"] := rfl

/-- C6 counterexample: the `JGE` threshold operand is not resolved by
`eval_arg` - a variable threshold makes `int(parts[2])` raise `ValueError`,
where the claimed semantics would resolve `x` to 5, find `0 >= 5` false and
fall through to a clean halt with empty output. -/
theorem jge_threshold_cex :
    execute ["MOV 5 x", "JGE 0 x L", "LABEL L", "HALT"] 100 =
      .error .valError := rfl

/-- C7 counterexample: an unknown opcode does not abort with an error value
at all - the run loop silently breaks, and `execute` returns the output
accumulated so far as a successful result. -/
theorem unknown_opcode_cex :
    execute ["PRINT 7", "FOO 1", "PRINT 8", "HALT"] 100 = .ok ["7"] := rfl

/-- C10 counterexample: an input whose two lines both match one of the
seven statement forms and whose `if` block is never closed, on which
`parse` nevertheless raises: the leading surplus `end` pops the root list,
and the following `if` line hits the empty stack (`IndexError`). -/
theorem parse_unclosed_cex :
    parse ["end", "if x < 1"] = .error .idxError ∧
    classify "end" = .fend ∧
    classify "if x < 1" = .fif "x < 1" := ⟨rfl, rfl, rfl⟩

lemma compileItems_drop_if :
    ∀ (fns : List String) (l1 l2 : List Stmt) (c : String) (b : List Stmt) (cnt : Nat),
    compileItems fns (l1 ++ .ifS c b :: l2) cnt = compileItems fns (l1 ++ l2) cnt := by
  intro fns l1
  induction l1 with
  | nil => intro l2 c b cnt; simp [compileItems]
  | cons s l1 ih =>
    intro l2 c b cnt
    cases s with
    | defS n a body =>
      simp only [List.cons_append, compileItems]
      cases hfn : compileFn fns n a body cnt with
      | error e => rfl
      | ok p =>
        obtain ⟨fc, cnt1⟩ := p
        simp only [List.append_eq, ih]
    | assignS v e =>
      simp only [List.cons_append, compileItems]
      cases hs : compileStmt fns (.assignS v e) cnt with
      | error e2 => rfl
      | ok p =>
        obtain ⟨sc, cnt1⟩ := p
        simp only [List.append_eq, ih]
    | printS e =>
      simp only [List.cons_append, compileItems]
      cases hs : compileStmt fns (.printS e) cnt with
      | error e2 => rfl
      | ok p =>
        obtain ⟨sc, cnt1⟩ := p
        simp only [List.append_eq, ih]
    | forS v a2 b2 body =>
      simp only [List.cons_append, compileItems]
      cases hs : compileStmt fns (.forS v a2 b2 body) cnt with
      | error e2 => rfl
      | ok p =>
        obtain ⟨sc, cnt1⟩ := p
        simp only [List.append_eq, ih]
    | ifS c2 b2 =>
      simp only [List.cons_append, compileItems, List.append_eq, ih]
    | retS e =>
      simp only [List.cons_append, compileItems, List.append_eq, ih]

lemma compileItems_drop_ret :
    ∀ (fns : List String) (l1 l2 : List Stmt) (e : String) (cnt : Nat),
    compileItems fns (l1 ++ .retS e :: l2) cnt = compileItems fns (l1 ++ l2) cnt := by
  intro fns l1
  induction l1 with
  | nil => intro l2 e cnt; simp [compileItems]
  | cons s l1 ih =>
    intro l2 e cnt
    cases s with
    | defS n a body =>
      simp only [List.cons_append, compileItems]
      cases hfn : compileFn fns n a body cnt with
      | error e2 => rfl
      | ok p =>
        obtain ⟨fc, cnt1⟩ := p
        simp only [List.append_eq, ih]
    | assignS v e2 =>
      simp only [List.cons_append, compileItems]
      cases hs : compileStmt fns (.assignS v e2) cnt with
      | error e3 => rfl
      | ok p =>
        obtain ⟨sc, cnt1⟩ := p
        simp only [List.append_eq, ih]
    | printS e2 =>
      simp only [List.cons_append, compileItems]
      cases hs : compileStmt fns (.printS e2) cnt with
      | error e3 => rfl
      | ok p =>
        obtain ⟨sc, cnt1⟩ := p
        simp only [List.append_eq, ih]
    | forS v a2 b2 body =>
      simp only [List.cons_append, compileItems]
      cases hs : compileStmt fns (.forS v a2 b2 body) cnt with
      | error e3 => rfl
      | ok p =>
        obtain ⟨sc, cnt1⟩ := p
        simp only [List.append_eq, ih]
    | ifS c2 b2 =>
      simp only [List.cons_append, compileItems, List.append_eq, ih]
    | retS e2 =>
      simp only [List.cons_append, compileItems, List.append_eq, ih]

/-- C2 amended: every non-literal, non-temp token - `_retval` included -
resolves through the current (top) scope of the scope stack, looked up and
lazily allocated there; and `RET` pops the callee scope first, so `_retval`
is bound in the caller's scope: at call depth 2, `RET 42` allocates a fresh
`_retval` slot (address 4) in the caller scope even though the global scope
already binds `_retval` at address 1 - the address is not the same at every
call depth. -/
theorem retval_resolution_amended :
    (∀ (s : VH) (name : String) (cur : List (String × Nat)),
      isTempVar name = false →
      s.scopeStack.getLast? = some cur →
      getVarAddr s name =
        (match cur.lookup name with
         | some a => .ok (some a, s)
         | none => .ok (some s.nextMemAddr,
             { s with
               nextMemAddr := s.nextMemAddr + 1
               scopeStack := s.scopeStack.dropLast ++ [(name, s.nextMemAddr) :: cur] }))) ∧
    execInstr retState "RET 42" =
      .ok (.cont { retState with
        scopeStack := [[("q", 0), ("_retval", 1)], [("_retval", 4), ("a", 2)]]
        nextMemAddr := 5
        memory := retState.memory.set 4 42
        sp := 0
        pc := 9 }) :=
  ⟨getVarAddr_top, by rfl⟩

/-- Witness for C2 amended at a concrete depth-1 state. -/
theorem retval_resolution_amended_witness :
    getVarAddr retvalState "_retval" =
      .ok (some 7, { retvalState with
        nextMemAddr := 8
        scopeStack := [[("_retval", 0)], [("_retval", 7)]] }) := by
  rw [retval_resolution_amended.1 retvalState "_retval" [] rfl rfl]
  rfl

/-- C3 amended: when the (stripped) expression text is not a function call
and `split("+")` yields exactly two parts - that is, the text contains
exactly one `+` - `compile_expr` compiles the two parts recursively and
emits `ADD left right fresh_temp`; with two or more `+` characters the
two-variable tuple unpacking raises `ValueError`; and `"a - b + c"`
compiles to `SUB a b tmp1; ADD tmp1 c tmp2`, computing `(a - b) + c`. -/
theorem plus_split_amended :
    (∀ (fns : List String) (e : String) (cnt : Nat) (a b : String),
      ((2 ≤ (pySplitWs (pyStrip e)).length && (pySplitWs (pyStrip e)).headD "" ∈ fns) = false) →
      pySplitCh '+' (pyStrip e) = [a, b] →
      compileExpr fns e cnt =
        (match compileExprF fns e.length (pyStrip a) cnt with
         | .error err => .error err
         | .ok (ta, ca, c1) =>
           match compileExprF fns e.length (pyStrip b) c1 with
           | .error err => .error err
           | .ok (tb, cb, c2) =>
             .ok ("tmp" ++ toString (c2 + 1),
               ca ++ cb ++ ["ADD " ++ ta ++ " " ++ tb ++ " " ++ ("tmp" ++ toString (c2 + 1))],
               c2 + 1))) ∧
    (∀ (fns : List String) (e : String) (cnt : Nat),
      ((2 ≤ (pySplitWs (pyStrip e)).length && (pySplitWs (pyStrip e)).headD "" ∈ fns) = false) →
      3 ≤ (pySplitCh '+' (pyStrip e)).length →
      compileExpr fns e cnt = .error .valError) ∧
    compileExpr [] "a - b + c" 0 = .ok ("tmp2", ["SUB a b tmp1", "ADD tmp1 c tmp2"], 2) := by
  refine ⟨?_, ?_, by rfl⟩
  · intro fns e cnt a b hguard hsplit
    have hcontains := contains_of_splitCh_pair hsplit
    unfold compileExpr
    rw [compileExprF.eq_2]
    simp only [hguard, Bool.false_eq_true, if_false, hcontains, if_true, hsplit, temp]
  · intro fns e cnt hguard hlong
    have hcontains := contains_of_splitCh_long hlong
    rcases hsp : pySplitCh '+' (pyStrip e) with _ | ⟨x, _ | ⟨y, _ | ⟨z, r⟩⟩⟩
    · rw [hsp] at hlong; simp at hlong
    · rw [hsp] at hlong; simp at hlong
    · rw [hsp] at hlong; simp at hlong
    · unfold compileExpr
      rw [compileExprF.eq_2]
      simp only [hguard, Bool.false_eq_true, if_false, hcontains, if_true, hsp]

/-- Witness for C3 amended on the expression `1+2`. -/
theorem plus_split_amended_witness :
    compileExpr [] "1+2" 0 = .ok ("tmp1", ["ADD 1 2 tmp1"], 1) := by
  rw [plus_split_amended.1 [] "1+2" 0 "1" "2" rfl rfl]
  rfl

/-- C4 amended: lowering an `If` splits the condition at `<` (exactly two
parts, else `ValueError` from the unpack), compiles only the left side,
discards the right side, and emits the evaluate-left code, then
`JGE leftloc 2 L_end` with the literal constant 2, then the compiled body,
then `LABEL L_end`.  No evaluate-right instructions are emitted. -/
theorem if_lowering_amended :
    (∀ (fns : List String) (cond : String) (body : List Stmt) (cnt : Nat) (l r : String),
      pySplitCh '<' cond = [l, r] →
      compileStmt fns (.ifS cond body) cnt =
        (match compileExpr fns (pyStrip l) cnt with
         | .error err => .error err
         | .ok (t, code, c1) =>
           match compileStmts fns body (c1 + 1) with
           | .error err => .error err
           | .ok (bodyCode, c2) =>
             .ok (code ++ ["JGE " ++ t ++ " 2 " ++ ("tmp" ++ toString (c1 + 1)) ++ "_end"] ++
                  bodyCode ++ ["LABEL " ++ ("tmp" ++ toString (c1 + 1)) ++ "_end"], c2))) ∧
    (∀ (fns : List String) (cond : String) (body : List Stmt) (cnt : Nat),
      (pySplitCh '<' cond).length ≠ 2 →
      compileStmt fns (.ifS cond body) cnt = .error .valError) := by
  constructor
  · intro fns cond body cnt l r hsplit
    simp only [compileStmt, hsplit, temp]
  · intro fns cond body cnt hlen
    rcases hsp : pySplitCh '<' cond with _ | ⟨x, _ | ⟨y, _ | ⟨z, r⟩⟩⟩
    · simp only [compileStmt, hsp]
    · simp only [compileStmt, hsp]
    · rw [hsp] at hlen; simp at hlen
    · simp only [compileStmt, hsp]

/-- Witness for C4 amended on the condition `n < 2`. -/
theorem if_lowering_amended_witness :
    compileStmt [] (.ifS "n < 2" []) 0 =
      .ok (["JGE n 2 tmp1_end", "LABEL tmp1_end"], 1) := by
  rw [if_lowering_amended.1 [] "n < 2" [] 0 "n " " 2" rfl]
  rfl

/-- C5 amended: `compile_all` assembles `JMP main`, the functions block,
`LABEL main`, the main block and `HALT` from the single pass of
`compile_items`; top-level `if` and `return` statements are silently
dropped from that pass (removing one changes nothing); a program with no
statements compiles to exactly the three-instruction skeleton and executes
with empty output. -/
theorem compile_all_amended :
    (∀ (fns : List String) (ast : List Stmt) (code mainCode : List String) (cnt : Nat),
      compileItems fns ast 0 = .ok (code, mainCode, cnt) →
      compileAll fns ast = .ok ("JMP main" :: code ++ "LABEL main" :: mainCode ++ ["HALT"])) ∧
    (∀ (fns : List String) (l1 l2 : List Stmt) (c : String) (b : List Stmt) (cnt : Nat),
      compileItems fns (l1 ++ .ifS c b :: l2) cnt = compileItems fns (l1 ++ l2) cnt) ∧
    (∀ (fns : List String) (l1 l2 : List Stmt) (e : String) (cnt : Nat),
      compileItems fns (l1 ++ .retS e :: l2) cnt = compileItems fns (l1 ++ l2) cnt) ∧
    compile [] = .ok ["JMP main", "LABEL main", "HALT"] ∧
    execute ["JMP main", "LABEL main", "HALT"] 10 = .ok [] := by
  refine ⟨?_, compileItems_drop_if, compileItems_drop_ret, by rfl, by rfl⟩
  intro fns ast code mainCode cnt h
  unfold compileAll
  rw [h]

/-- Witness for C5 amended on a one-statement program. -/
theorem compile_all_amended_witness :
    compileAll [] [.printS "1"] =
      .ok ("JMP main" :: [] ++ "LABEL main" :: ["PRINT 1"] ++ ["HALT"]) :=
  compile_all_amended.1 [] [.printS "1"] [] ["PRINT 1"] 0 rfl

/-- C6 amended: the `JGE` threshold operand is parsed as an integer literal
by `int(parts[2])` - a non-numeric threshold raises `ValueError` - while
only `JGT` resolves its threshold through `eval_arg`; the jumps are taken
exactly when `val >= threshold` (`JGE`) and `val > threshold` (`JGT`). -/
theorem jge_threshold_amended :
    (∀ (s : VH) (instr a t l : String) (n v : Int) (s2 : VH),
      pySplitWs instr = ["JGE", a, t, l] →
      pyToInt? t.data = some n →
      evalArg s a = .ok (v, s2) →
      execInstr s instr =
        (if n ≤ v then
          match lookupLabel s2 l with
          | .error e => .error e
          | .ok i => .ok (.cont { s2 with pc := (i : Int) })
        else .ok (.cont { s2 with pc := s2.pc + 1 }))) ∧
    (∀ (s : VH) (instr a t l : String) (v : Int) (s2 : VH),
      pySplitWs instr = ["JGE", a, t, l] →
      pyToInt? t.data = none →
      evalArg s a = .ok (v, s2) →
      execInstr s instr = .error .valError) ∧
    (∀ (s : VH) (instr a t l : String) (v w : Int) (s2 s3 : VH),
      pySplitWs instr = ["JGT", a, t, l] →
      evalArg s a = .ok (v, s2) →
      evalArg s2 t = .ok (w, s3) →
      execInstr s instr =
        (if w < v then
          match lookupLabel s3 l with
          | .error e => .error e
          | .ok i => .ok (.cont { s3 with pc := (i : Int) })
        else .ok (.cont { s3 with pc := s3.pc + 1 }))) :=
  ⟨execInstr_jge_lit, execInstr_jge_var, execInstr_jgt⟩

/-- Witness for C6 amended on `JGE 0 5 L` in the fresh VM state. -/
theorem jge_threshold_amended_witness :
    execInstr (VH.init 512 16) "JGE 0 5 L" =
      (if (5 : Int) ≤ 0 then
        match lookupLabel (VH.init 512 16) "L" with
        | .error e => .error e
        | .ok i => .ok (.cont { VH.init 512 16 with pc := (i : Int) })
      else .ok (.cont { VH.init 512 16 with pc := (VH.init 512 16).pc + 1 })) :=
  jge_threshold_amended.1 (VH.init 512 16) "JGE 0 5 L" "0" "5" "L" 5 0
    (VH.init 512 16) rfl rfl rfl

/-- C7 amended: an instruction whose opcode is none of the thirteen known
ones makes the run loop break silently: `execInstr` returns `stop` with the
state unchanged, and the loop returns the output accumulated so far as a
successful result - no error value of any kind is produced. -/
theorem unknown_opcode_amended :
    (∀ (s : VH) (instr op : String) (rest : List String),
      pySplitWs instr = op :: rest →
      op ∉ (["LABEL", "JMP", "PARAM", "MOV", "ADD", "SUB", "RET", "JGE",
        "JGT", "PUSH", "CALL", "PRINT", "HALT"] : List String) →
      execInstr s instr = .ok (.stop s)) ∧
    (∀ (fuel : Nat) (s : VH) (instr op : String) (rest : List String),
      s.pc < (s.program.length : Int) →
      pyIndex s.program s.pc = .ok instr →
      pySplitWs instr = op :: rest →
      op ∉ (["LABEL", "JMP", "PARAM", "MOV", "ADD", "SUB", "RET", "JGE",
        "JGT", "PUSH", "CALL", "PRINT", "HALT"] : List String) →
      runLoop (fuel + 1) s = .ok s.output) := by
  refine ⟨execInstr_unknown, ?_⟩
  intro fuel s instr op rest hpc hfetch hsplit hop
  unfold runLoop
  rw [if_pos hpc, hfetch]
  dsimp only
  rw [execInstr_unknown s instr op rest hsplit hop]

/-- Witness for C7 amended on the opcode `FOO`. -/
theorem unknown_opcode_amended_witness :
    execInstr (VH.init 512 16) "FOO 1" = .ok (.stop (VH.init 512 16)) :=
  unknown_opcode_amended.1 (VH.init 512 16) "FOO 1" "FOO" ["1"] rfl (by decide)

set_option maxHeartbeats 4000000 in
/-- C9: variable-address allocation is never bounds-checked - a fresh name
always receives `next_mem_addr`, whatever the memory size (at `oobState`
the counter already equals the 512-cell capacity and allocation still hands
out address 512); the looping assembly program `oobProg`, which binds a
fresh scope variable on every call, really does index memory out of range
at cell 512; and every out-of-range memory access in any `execute` run is
at an address of at least 512, so a run whose bindings all receive
addresses below 512 - at most 512 names - only ever touches memory in
bounds. -/
theorem mem_allocation_unchecked :
    (∀ (s : VH) (name : String) (cur : List (String × Nat)),
      isTempVar name = false →
      s.scopeStack.getLast? = some cur →
      cur.lookup name = none →
      getVarAddr s name = .ok (some s.nextMemAddr,
        { s with
          nextMemAddr := s.nextMemAddr + 1
          scopeStack := s.scopeStack.dropLast ++ [(name, s.nextMemAddr) :: cur] })) ∧
    execute oobProg 900 = .error (.memOOB 512) ∧
    (∀ (code : List String) (fuel : Nat) (a : Nat),
      execute code fuel = .error (.memOOB a) → 512 ≤ a) := by
  refine ⟨?_, by rfl, execute_oob_addr⟩
  intro s name cur h1 h2 h3
  rw [getVarAddr_top s name cur h1 h2, h3]

/-- Witness for C9 at a state whose allocation counter equals the memory
capacity, and at the concrete out-of-range run. -/
theorem mem_allocation_unchecked_witness :
    getVarAddr oobState "x" = .ok (some 512, { oobState with
      nextMemAddr := 513
      scopeStack := [[("x", 512)]] }) ∧ 512 ≤ 512 := by
  constructor
  · rw [mem_allocation_unchecked.1 oobState "x" [] rfl rfl rfl]
    rfl
  · exact mem_allocation_unchecked.2.2 oobProg 4000 512 mem_allocation_unchecked.2.1

/-- C10 amended: the parser never checks that blocks are closed - for every
input whose preprocessed lines all match one of the seven statement forms
and in which no prefix contains more `end` lines than block-opener lines,
`parse` returns an AST without raising, unclosed blocks included (they
absorb the remaining statements); with surplus `end` lines the root list is
popped and the next line raises `IndexError`, so `parse` can raise even
when every line matches a form. -/
theorem parse_unclosed_amended :
    ∀ (lines : List String),
    (∀ l ∈ filterLines lines, classify l ≠ .funknown) →
    (∀ n : Nat, n ≤ (filterLines lines).length →
      ((filterLines lines).take n).countP (fun l => isEndForm (classify l)) ≤
      ((filterLines lines).take n).countP (fun l => isOpenerForm (classify l))) →
    ((filterLines lines).countP (fun l => isEndForm (classify l)) <
      (filterLines lines).countP (fun l => isOpenerForm (classify l))) →
    ∃ out, parse lines = .ok out := by
  intro lines hknown hbal hunclosed
  unfold parse
  apply parseLoop_total
  · simp
  · simp
  · intro n
    by_cases hn : n ≤ (filterLines lines).length
    · have h := hbal n hn
      simpa using h
    · push_neg at hn
      rw [List.take_of_length_le (le_of_lt hn)]
      have h := hbal (filterLines lines).length le_rfl
      rw [List.take_length] at h
      simpa using h
  · exact hknown

/-- Witness for C10 amended on a program with an unclosed `if` block. -/
theorem parse_unclosed_amended_witness :
    ∃ out, parse ["if x < 1", "print x"] = .ok out :=
  parse_unclosed_amended ["if x < 1", "print x"] (by decide) (by decide) (by decide)

end Irony
